import Mathlib

/-!
Verification development for the sysconfig network renderer
(`cloudinit/net/sysconfig.py`): a shallow embedding of the module's data
model (ConfigMap, Route, NetInterface) and of the rendering passes, with
theorems checking the documented behaviour against the embedded code.

Conventions used throughout the embedding:
* Python scalar values stored in the config dictionaries are modelled by
  `PyVal` (string / bool / int).
* Python dicts are modelled as association lists with replace-on-set
  semantics (`setKV`); key iteration order never matters because the
  serializers sort keys.
* Python functions that can raise are modelled in `Except Err`.
* String operations (comparison, prefix/suffix tests, decimal rendering)
  are implemented directly on `List Char` so they evaluate by `decide`
  and mirror Python's code-point-wise semantics.
-/

namespace CloudInit

/-- A scalar value as stored in the sysconfig dictionaries: Python
`str`, `bool` or `int`. -/
inductive PyVal where
  | s (str : String)
  | b (bool : Bool)
  | i (int : Int)
deriving DecidableEq, Repr

/-- Decimal digits of a natural number, most significant first, with
explicit fuel so that the definition is structurally recursive (the fuel
`n + 1` always suffices).  Mirrors Python `str` on a non-negative int. -/
def natStrAux (fuel : Nat) (n : Nat) : List Char :=
  match fuel with
  | 0 => []
  | fuel + 1 =>
    if n < 10 then [Nat.digitChar n]
    else natStrAux fuel (n / 10) ++ [Nat.digitChar (n % 10)]

/-- Python `str` of a natural number. -/
def natStr (n : Nat) : String := ⟨natStrAux (n + 1) n⟩

/-- Python `str` of an int (decimal, `-` sign for negatives). -/
def intStr (n : Int) : String :=
  if n < 0 then "-" ++ natStr n.natAbs else natStr n.natAbs

/-- Python `str` applied to a stored value. -/
def pyStr : PyVal → String
  | .s str => str
  | .b true => "True"
  | .b false => "False"
  | .i int => intStr int

/-- Python `==` on the values we model.  `bool` is an int subclass in
Python, so `True == 1` and `False == 0`; strings never equal
numbers. -/
def pyEq : PyVal → PyVal → Bool
  | .s a, .s c => a = c
  | .i a, .i c => a = c
  | .b a, .b c => a = c
  | .b a, .i c => (if a then (1 : Int) else 0) = c
  | .i a, .b c => a = (if c then (1 : Int) else 0)
  | .s _, _ => false
  | _, .s _ => false

/-- Lexicographic `<=` on char lists by code point, Python's string
ordering. -/
def lexLe : List Char → List Char → Bool
  | [], _ => true
  | _ :: _, [] => false
  | a :: as, bc :: bs =>
    if a.toNat < bc.toNat then true
    else if bc.toNat < a.toNat then false
    else lexLe as bs

/-- Python `s1 <= s2` on strings. -/
def strLe (s t : String) : Bool := lexLe s.data t.data

/-- Python `needle in haystack` on char lists (substring test). -/
def listContains (l pat : List Char) : Bool :=
  pat.isPrefixOf l ||
    match l with
    | [] => false
    | _ :: t => listContains t pat

/-- Python `pat in s` for strings. -/
def strContains (s pat : String) : Bool := listContains s.data pat.data

/-- Python `s.startswith(pre)`. -/
def strStartsWith (s pre : String) : Bool := pre.data.isPrefixOf s.data

/-- Python `s.endswith(suf)`. -/
def strEndsWith (s suf : String) : Bool := suf.data.isSuffixOf s.data

/-- Python `':' in address`, used to classify addresses as IPv6. -/
def hasColon (s : String) : Bool := s.data.any (fun c => c = ':')

/-- The characters matched by Python 2's `re.search(r"\s", value)` on a
byte string: space, tab, newline, carriage return, vertical tab, form
feed. -/
def isPySpace (c : Char) : Bool :=
  c.toNat = 32 || c.toNat = 9 || c.toNat = 10 || c.toNat = 13 ||
    c.toNat = 11 || c.toNat = 12

/-- `"\n".join(lines)` (Python `str.join`). -/
def joinSep (sep : String) : List String → String
  | [] => ""
  | [x] => x
  | x :: y :: rest => x ++ sep ++ joinSep sep (y :: rest)

/-- Concatenation of a list of strings (sequential `buf.write` calls). -/
def strConcat : List String → String
  | [] => ""
  | x :: rest => x ++ strConcat rest

/-! ### The errors the module can raise

The Python code raises `ValueError` with distinct messages (unknown
subnet type, duplicate default route, unknown protocol, bad interface
kind) and `KeyError` for missing dict keys; the constructors keep those
cases apart. -/

inductive Err where
  | unknownSubnetType (ty : Option String) (iface : String)
  | duplicateDefaultRoute (iface : String)
  | invalidProto (proto : String)
  | invalidKind (kind : String)
  | keyError (key : String)
  | typeError (msg : String)
deriving DecidableEq, Repr

/-! ### ConfigMap (`class ConfigMap`)

`self._conf` is a Python dict from string keys to scalar values; we model
it as an association list with replace-on-set semantics. -/

/-- The contents of a `ConfigMap`'s `_conf` dict. -/
abbrev KVList := List (String × PyVal)

/-- Python `key in dict`. -/
def containsKey : KVList → String → Bool
  | [], _ => false
  | (k', _) :: rest, k => k' = k || containsKey rest k

/-- Python `dict[key]` as an `Option` (`none` = would raise `KeyError`). -/
def lookupKV : KVList → String → Option PyVal
  | [], _ => none
  | (k', v) :: rest, k => if k' = k then some v else lookupKV rest k

/-- Replace the value stored under `k`, keeping entry positions. -/
def replaceKV : KVList → String → PyVal → KVList
  | [], _, _ => []
  | (k1, v1) :: rest, k, v =>
    if k1 = k then (k, v) :: replaceKV rest k v
    else (k1, v1) :: replaceKV rest k v

/-- Python `dict[key] = value` (replaces in place, or appends). -/
def setKV (l : KVList) (k : String) (v : PyVal) : KVList :=
  if containsKey l k then replaceKV l k v
  else l ++ [(k, v)]

/-- Python `dict.pop(key, None)` (`ConfigMap.drop`). -/
def dropKV (l : KVList) (k : String) : KVList :=
  l.filter (fun p => decide (p.1 ≠ k))

/-- Ordering of `(key, value)` pairs by key, as used by
`sorted(self._conf.keys())`. -/
def keyLe (a b : String × PyVal) : Prop := strLe a.1 b.1 = true

instance : DecidableRel keyLe := fun a b => by
  unfold keyLe; infer_instance

/-- `sorted(self._conf.keys())` paired with the corresponding values:
the dict's entries in ascending key order. -/
def sortedPairs (l : KVList) : KVList := List.insertionSort keyLe l

/-- `_quote_value`: wrap a whitespace-containing value in double quotes
unless it already starts and ends with one. -/
def quote_value (value : String) : String :=
  if value.data.any isPySpace then
    if strStartsWith value "\"" && strEndsWith value "\"" then value
    else "\"" ++ value ++ "\""
  else value

/-- `ConfigMap._bool_map`. -/
def bool_map (b : Bool) : String := if b then "yes" else "no"

/-- The value-rendering steps of `ConfigMap.to_string`: booleans via
`_bool_map`, any other non-string via `str`. -/
def conf_val_str : PyVal → String
  | .b bv => bool_map bv
  | .s sv => sv
  | .i n => intStr n

/-- One `KEY=VALUE` output line of `ConfigMap.to_string`. -/
def kv_line (p : String × PyVal) : String :=
  p.1 ++ "=" ++ quote_value (conf_val_str p.2) ++ "\n"

/-- `_make_header(sep)`: the two-line "do not edit" banner. -/
def make_header (sep : String) : String :=
  joinSep "\n"
    (["Created by cloud-init on instance boot automatically, do not edit.",
      ""].map
      (fun l => if l = "" then sep else sep ++ " " ++ l))

/-- `ConfigMap.to_string`. -/
def to_string (conf : KVList) : String :=
  make_header "#" ++ (if conf = [] then "" else "\n") ++
    strConcat ((sortedPairs conf).map kv_line)

/-! ### Facts about the string order -/

theorem charToNat_inj {a b : Char} (h : a.toNat = b.toNat) : a = b := by
  have ha := Char.ofNat_toNat a
  have hb := Char.ofNat_toNat b
  rw [← ha, ← hb, h]

theorem lexLe_total : ∀ l₁ l₂, lexLe l₁ l₂ = true ∨ lexLe l₂ l₁ = true := by
  intro l₁
  induction l₁ with
  | nil => intro l₂; left; rfl
  | cons a as ih =>
    intro l₂
    cases l₂ with
    | nil => right; rfl
    | cons bc bs =>
      by_cases h1 : a.toNat < bc.toNat
      · left; simp [lexLe, h1]
      · by_cases h2 : bc.toNat < a.toNat
        · right; simp [lexLe, h2, h1]
        · simpa [lexLe, h1, h2] using ih bs

theorem lexLe_trans :
    ∀ l₁ l₂ l₃, lexLe l₁ l₂ = true → lexLe l₂ l₃ = true → lexLe l₁ l₃ = true := by
  intro l₁
  induction l₁ with
  | nil => intro l₂ l₃ _ _; rfl
  | cons a as ih =>
    intro l₂ l₃ h12 h23
    cases l₂ with
    | nil => simp [lexLe] at h12
    | cons bc bs =>
      cases l₃ with
      | nil => simp [lexLe] at h23
      | cons c cs =>
        rcases Nat.lt_trichotomy a.toNat bc.toNat with hab | hab | hab
        · rcases Nat.lt_trichotomy bc.toNat c.toNat with hbc | hbc | hbc
          · have h : a.toNat < c.toNat := by omega
            simp [lexLe, h]
          · have h : a.toNat < c.toNat := by omega
            simp [lexLe, h]
          · exfalso
            have h1 : ¬ bc.toNat < c.toNat := by omega
            simp [lexLe, h1, hbc] at h23
        · rcases Nat.lt_trichotomy bc.toNat c.toNat with hbc | hbc | hbc
          · have h : a.toNat < c.toNat := by omega
            simp [lexLe, h]
          · have ha1 : ¬ a.toNat < bc.toNat := by omega
            have ha2 : ¬ bc.toNat < a.toNat := by omega
            have hb1 : ¬ bc.toNat < c.toNat := by omega
            have hb2 : ¬ c.toNat < bc.toNat := by omega
            have hc1 : ¬ a.toNat < c.toNat := by omega
            have hc2 : ¬ c.toNat < a.toNat := by omega
            simp only [lexLe, ha1, ha2, if_false] at h12
            simp only [lexLe, hb1, hb2, if_false] at h23
            simpa [lexLe, hc1, hc2] using ih bs cs h12 h23
          · exfalso
            have h1 : ¬ bc.toNat < c.toNat := by omega
            simp [lexLe, h1, hbc] at h23
        · exfalso
          have h1 : ¬ a.toNat < bc.toNat := by omega
          simp [lexLe, h1, hab] at h12

theorem lexLe_antisymm :
    ∀ l₁ l₂, lexLe l₁ l₂ = true → lexLe l₂ l₁ = true → l₁ = l₂ := by
  intro l₁
  induction l₁ with
  | nil =>
    intro l₂ _ h21
    cases l₂ with
    | nil => rfl
    | cons bc bs => simp [lexLe] at h21
  | cons a as ih =>
    intro l₂ h12 h21
    cases l₂ with
    | nil => simp [lexLe] at h12
    | cons bc bs =>
      rcases Nat.lt_trichotomy a.toNat bc.toNat with hab | hab | hab
      · exfalso
        have h1 : ¬ bc.toNat < a.toNat := by omega
        simp [lexLe, h1, hab] at h21
      · have h1 : ¬ a.toNat < bc.toNat := by omega
        have h2 : ¬ bc.toNat < a.toNat := by omega
        simp only [lexLe, h1, h2, if_false] at h12 h21
        rw [charToNat_inj hab, ih bs h12 h21]
      · exfalso
        have h1 : ¬ a.toNat < bc.toNat := by omega
        simp [lexLe, h1, hab] at h12

theorem stringEqOfData {s t : String} (h : s.data = t.data) : s = t := by
  cases s; cases t; exact congrArg String.mk h

theorem strLe_total (s t : String) : strLe s t = true ∨ strLe t s = true :=
  lexLe_total s.data t.data

theorem strLe_trans {s t u : String} (h1 : strLe s t = true) (h2 : strLe t u = true) :
    strLe s u = true :=
  lexLe_trans s.data t.data u.data h1 h2

theorem strLe_antisymm {s t : String} (h1 : strLe s t = true) (h2 : strLe t s = true) :
    s = t :=
  stringEqOfData (lexLe_antisymm s.data t.data h1 h2)

instance : IsTotal (String × PyVal) keyLe :=
  ⟨fun a b => strLe_total a.1 b.1⟩

instance : IsTrans (String × PyVal) keyLe :=
  ⟨fun _ _ _ h1 h2 => strLe_trans h1 h2⟩

/-- Strict lexicographic order on strings. -/
def strKeyLt (a b : String) : Prop := strLe a b = true ∧ a ≠ b

/-- Strict key order on config entries. -/
def pairKeyLt (a b : String × PyVal) : Prop := strKeyLt a.1 b.1

instance : IsAntisymm (String × PyVal) pairKeyLt :=
  ⟨fun _ _ h1 h2 => (h1.2 (strLe_antisymm h1.1 h2.1)).elim⟩

/-! ### Facts about the dict model -/

/-- The keys of a config dict. -/
def keysOf (l : KVList) : List String := l.map Prod.fst

theorem containsKey_iff_mem_keys {l : KVList} {k : String} :
    containsKey l k = true ↔ k ∈ keysOf l := by
  induction l with
  | nil => simp [containsKey, keysOf]
  | cons p rest ih =>
    obtain ⟨k1, v1⟩ := p
    simp only [containsKey, Bool.or_eq_true, decide_eq_true_eq, keysOf,
      List.map_cons, List.mem_cons] at *
    constructor
    · rintro (h | h)
      · exact Or.inl h.symm
      · exact Or.inr (ih.mp h)
    · rintro (h | h)
      · exact Or.inl h.symm
      · exact Or.inr (ih.mpr h)

theorem keysOf_replaceKV (l : KVList) (k : String) (v : PyVal) :
    keysOf (replaceKV l k v) = keysOf l := by
  induction l with
  | nil => rfl
  | cons p rest ih =>
    obtain ⟨k1, v1⟩ := p
    by_cases hk : k1 = k
    · subst hk
      simp [replaceKV, keysOf] at ih ⊢
      exact ih
    · simp [replaceKV, keysOf, hk] at ih ⊢
      exact ih

theorem lookup_replaceKV_self (l : KVList) (k : String) (v : PyVal)
    (h : containsKey l k = true) :
    lookupKV (replaceKV l k v) k = some v := by
  induction l with
  | nil => simp [containsKey] at h
  | cons p rest ih =>
    obtain ⟨k1, v1⟩ := p
    simp only [containsKey, Bool.or_eq_true, decide_eq_true_eq] at h
    by_cases hk : k1 = k
    · subst hk
      simp [replaceKV, lookupKV]
    · have h' : containsKey rest k = true := by
        rcases h with h | h
        · exact absurd h hk
        · exact h
      simp [replaceKV, lookupKV, hk, ih h']

theorem lookup_append_single (l : KVList) (k : String) (v : PyVal) :
    lookupKV (l ++ [(k, v)]) k = some v ∨
      ∃ w, lookupKV l k = some w ∧ lookupKV (l ++ [(k, v)]) k = some w := by
  induction l with
  | nil => left; simp [lookupKV]
  | cons p rest ih =>
    obtain ⟨k1, v1⟩ := p
    by_cases hk : k1 = k
    · right; exact ⟨v1, by simp [lookupKV, hk]⟩
    · rcases ih with h | ⟨w, hw1, hw2⟩
      · left; simp [lookupKV, hk, h]
      · right; exact ⟨w, by simp [lookupKV, hk, hw1, hw2]⟩

theorem lookup_none_of_not_contains {l : KVList} {k : String}
    (h : containsKey l k = false) : lookupKV l k = none := by
  induction l with
  | nil => rfl
  | cons p rest ih =>
    obtain ⟨k1, v1⟩ := p
    simp only [containsKey, Bool.or_eq_false_iff, decide_eq_false_iff_not] at h
    simp [lookupKV, h.1, ih h.2]

theorem lookup_setKV_self (l : KVList) (k : String) (v : PyVal) :
    lookupKV (setKV l k v) k = some v := by
  unfold setKV
  by_cases h : containsKey l k = true
  · simp only [h, if_true]
    exact lookup_replaceKV_self l k v h
  · have h' : containsKey l k = false := by
      cases hc : containsKey l k
      · rfl
      · exact absurd hc h
    simp only [h', Bool.false_eq_true, if_false]
    rcases lookup_append_single l k v with hh | ⟨w, hw1, _⟩
    · exact hh
    · rw [lookup_none_of_not_contains h'] at hw1
      exact absurd hw1 (by simp)

theorem lookup_replaceKV_ne (l : KVList) {k k' : String} (v : PyVal) (h : k' ≠ k) :
    lookupKV (replaceKV l k v) k' = lookupKV l k' := by
  induction l with
  | nil => rfl
  | cons p rest ih =>
    obtain ⟨k1, v1⟩ := p
    by_cases hk : k1 = k
    · subst hk
      have hne : ¬ (k1 = k') := fun hc => h hc.symm
      simp [replaceKV, lookupKV, hne, ih]
    · by_cases hk' : k1 = k'
      · subst hk'
        simp [replaceKV, lookupKV, hk]
      · simp [replaceKV, lookupKV, hk, hk', ih]

theorem lookup_append_ne (l : KVList) {k k' : String} (v : PyVal) (h : k' ≠ k) :
    lookupKV (l ++ [(k, v)]) k' = lookupKV l k' := by
  induction l with
  | nil => simp [lookupKV, Ne.symm h]
  | cons p rest ih =>
    obtain ⟨k1, v1⟩ := p
    by_cases hk' : k1 = k'
    · simp [lookupKV, hk']
    · simp [lookupKV, hk', ih]

theorem lookup_setKV_ne (l : KVList) {k k' : String} (v : PyVal) (h : k' ≠ k) :
    lookupKV (setKV l k v) k' = lookupKV l k' := by
  unfold setKV
  split
  · exact lookup_replaceKV_ne l v h
  · exact lookup_append_ne l v h

theorem nodup_keys_setKV {l : KVList} (k : String) (v : PyVal)
    (h : (keysOf l).Nodup) : (keysOf (setKV l k v)).Nodup := by
  unfold setKV
  split
  · rwa [keysOf_replaceKV]
  · rename_i hc
    have hk : k ∉ keysOf l := by
      intro hmem
      rw [← containsKey_iff_mem_keys] at hmem
      exact hc hmem
    have : keysOf (l ++ [(k, v)]) = keysOf l ++ [k] := by
      simp [keysOf]
    rw [this]
    exact List.nodup_append.mpr ⟨h, List.nodup_singleton k,
      fun a ha hb => by simp at hb; exact hk (hb ▸ ha)⟩

theorem nodup_keys_dropKV {l : KVList} (k : String)
    (h : (keysOf l).Nodup) : (keysOf (dropKV l k)).Nodup := by
  have hsub : List.Sublist (dropKV l k) l := List.filter_sublist l
  exact (hsub.map Prod.fst).nodup h

/-- The `ConfigMap` states reachable from the empty dict through
`__setitem__` and `drop`. -/
inductive Reachable : KVList → Prop where
  | empty : Reachable []
  | set {l : KVList} (k : String) (v : PyVal) : Reachable l → Reachable (setKV l k v)
  | drop {l : KVList} (k : String) : Reachable l → Reachable (dropKV l k)

theorem Reachable.nodup_keys {l : KVList} (h : Reachable l) : (keysOf l).Nodup := by
  induction h with
  | empty => simp [keysOf]
  | set k v _ ih => exact nodup_keys_setKV k v ih
  | drop k _ ih => exact nodup_keys_dropKV k ih

theorem mem_of_lookup_eq_some {l : KVList} {k : String} {v : PyVal}
    (h : lookupKV l k = some v) : (k, v) ∈ l := by
  induction l with
  | nil => simp [lookupKV] at h
  | cons p rest ih =>
    obtain ⟨k1, v1⟩ := p
    by_cases hk : k1 = k
    · simp only [lookupKV, hk, if_true] at h
      subst hk
      cases h
      simp
    · simp only [lookupKV, hk, if_false] at h
      exact List.mem_cons_of_mem _ (ih h)

theorem lookup_eq_some_of_mem {l : KVList} (hnd : (keysOf l).Nodup)
    {k : String} {v : PyVal} (h : (k, v) ∈ l) : lookupKV l k = some v := by
  induction l with
  | nil => simp at h
  | cons p rest ih =>
    obtain ⟨k1, v1⟩ := p
    simp only [keysOf, List.map_cons, List.nodup_cons] at hnd
    rcases List.mem_cons.mp h with h | h
    · cases h
      simp [lookupKV]
    · by_cases hk : k1 = k
      · exfalso
        apply hnd.1
        subst hk
        exact List.mem_map.mpr ⟨(k1, v), h, rfl⟩
      · simp only [lookupKV, hk, if_false]
        exact ih hnd.2 h

theorem sortedPairs_perm (l : KVList) : List.Perm (sortedPairs l) l :=
  List.perm_insertionSort keyLe l

theorem sortedPairs_sorted (l : KVList) : List.Sorted keyLe (sortedPairs l) :=
  List.sorted_insertionSort keyLe l

theorem sortedPairs_strict {l : KVList} (h : (keysOf l).Nodup) :
    List.Sorted pairKeyLt (sortedPairs l) := by
  have hs := sortedPairs_sorted l
  have hnd : (keysOf (sortedPairs l)).Nodup :=
    (((sortedPairs_perm l).map Prod.fst).nodup_iff).mpr h
  have h2 : List.Pairwise (fun p q : String × PyVal => p.1 ≠ q.1) (sortedPairs l) :=
    List.pairwise_map.mp hnd
  exact (hs.and h2).imp (fun hx => ⟨hx.1, hx.2⟩)

theorem sortedPairs_eq_of_lookup_eq {l₁ l₂ : KVList}
    (h1 : (keysOf l₁).Nodup) (h2 : (keysOf l₂).Nodup)
    (hl : ∀ k, lookupKV l₁ k = lookupKV l₂ k) :
    sortedPairs l₁ = sortedPairs l₂ := by
  have hp : List.Perm l₁ l₂ := by
    rw [List.perm_ext_iff_of_nodup (List.Nodup.of_map _ h1) (List.Nodup.of_map _ h2)]
    rintro ⟨k, v⟩
    constructor
    · intro hm
      exact mem_of_lookup_eq_some ((hl k) ▸ lookup_eq_some_of_mem h1 hm)
    · intro hm
      exact mem_of_lookup_eq_some ((hl k).symm ▸ lookup_eq_some_of_mem h2 hm)
  exact List.eq_of_perm_of_sorted
    ((sortedPairs_perm l₁).trans (hp.trans (sortedPairs_perm l₂).symm))
    (sortedPairs_strict h1) (sortedPairs_strict h2)

/-- C7: for every `ConfigMap` state reachable by any sequence of
`__setitem__`/`drop` operations, `to_string` emits the `KEY=VALUE` lines
in strictly lexicographic key order, and two stores with the same
key-to-value mapping (regardless of insertion order) serialize to the
same output. -/
theorem configmap_serialize_lex_order_and_insertion_independence :
    ∀ l₁ l₂ : KVList, Reachable l₁ → Reachable l₂ →
      List.Sorted strKeyLt ((sortedPairs l₁).map Prod.fst) ∧
      ((∀ k, lookupKV l₁ k = lookupKV l₂ k) → to_string l₁ = to_string l₂) := by
  intro l₁ l₂ h1 h2
  constructor
  · exact List.pairwise_map.mpr (sortedPairs_strict h1.nodup_keys)
  · intro hl
    have hsp := sortedPairs_eq_of_lookup_eq h1.nodup_keys h2.nodup_keys hl
    have hlen : l₁.length = l₂.length := by
      calc l₁.length = (sortedPairs l₁).length := (sortedPairs_perm l₁).length_eq.symm
        _ = (sortedPairs l₂).length := by rw [hsp]
        _ = l₂.length := (sortedPairs_perm l₂).length_eq
    have hif : (if l₁ = [] then "" else "\n") = (if l₂ = [] then "" else "\n") := by
      by_cases h : l₁ = []
      · subst h
        rw [if_pos rfl, if_pos (List.eq_nil_of_length_eq_zero hlen.symm)]
      · have h' : l₂ ≠ [] := by
          intro hc
          subst hc
          exact h (List.eq_nil_of_length_eq_zero hlen)
        rw [if_neg h, if_neg h']
    unfold to_string
    rw [hsp, hif]

/-- Witness for C7 at a concrete pair of stores built in opposite
insertion orders. -/
theorem configmap_serialize_lex_order_and_insertion_independence_witness :
    to_string (setKV (setKV [] "ZKEY" (.s "1")) "AKEY" (.s "2")) =
      to_string (setKV (setKV [] "AKEY" (.s "2")) "ZKEY" (.s "1")) := by
  apply (configmap_serialize_lex_order_and_insertion_independence _ _
    (Reachable.set _ _ (Reachable.set _ _ Reachable.empty))
    (Reachable.set _ _ (Reachable.set _ _ Reachable.empty))).2
  intro k
  by_cases hz : "ZKEY" = k <;> by_cases ha : "AKEY" = k
  · exact absurd (ha.trans hz.symm) (by decide)
  · simp [setKV, containsKey, replaceKV, lookupKV, hz, ha]
  · simp [setKV, containsKey, replaceKV, lookupKV, hz, ha]
  · simp [setKV, containsKey, replaceKV, lookupKV, hz, ha]

/-- C8: value rendering in `ConfigMap.to_string`: the serialized line for
an entry is `key=<quoted stringification>`; `True`/`False` render as
`yes`/`no`; non-string non-bool values are stringified; values containing
whitespace are double-quoted unless already quoted. -/
theorem configmap_value_rendering :
    (∀ k v, to_string (setKV [] k v) =
      make_header "#" ++ "\n" ++ k ++ "=" ++ quote_value (conf_val_str v) ++ "\n") ∧
    conf_val_str (.b true) = "yes" ∧
    conf_val_str (.b false) = "no" ∧
    (∀ n : Int, conf_val_str (.i n) = intStr n) ∧
    (∀ s : String, s.data.any isPySpace = false → quote_value s = s) ∧
    (∀ s : String, s.data.any isPySpace = true →
      strStartsWith s "\"" = true → strEndsWith s "\"" = true → quote_value s = s) ∧
    (∀ s : String, s.data.any isPySpace = true →
      (strStartsWith s "\"" && strEndsWith s "\"") = false →
      quote_value s = "\"" ++ s ++ "\"") := by
  refine ⟨?_, rfl, rfl, fun _ => rfl, ?_, ?_, ?_⟩
  · intro k v
    show to_string [(k, v)] = _
    simp [to_string, sortedPairs, List.insertionSort, List.orderedInsert,
      strConcat, kv_line, String.append_assoc]
  · intro s h
    simp [quote_value, h]
  · intro s h h1 h2
    simp [quote_value, h, h1, h2]
  · intro s h h12
    simp only [quote_value, h, if_pos, if_true]
    rw [if_neg]
    simp [h12]

/-- Witness for C8 at concrete keys and values. -/
theorem configmap_value_rendering_witness :
    to_string (setKV [] "MTU" (.i 1500)) =
      make_header "#" ++ "\n" ++ "MTU" ++ "=" ++
        quote_value (conf_val_str (.i 1500)) ++ "\n" ∧
    quote_value "my value" = "\"my value\"" ∧
    quote_value "\"a b\"" = "\"a b\"" ∧
    quote_value "plain" = "plain" := by
  refine ⟨configmap_value_rendering.1 "MTU" (.i 1500), ?_, ?_, ?_⟩
  · exact configmap_value_rendering.2.2.2.2.2.2 "my value" (by decide) (by decide)
  · exact configmap_value_rendering.2.2.2.2.2.1 "\"a b\"" (by decide) (by decide)
      (by decide)
  · exact configmap_value_rendering.2.2.2.2.1 "plain" (by decide)

/-! ### Route (`class Route(ConfigMap)`) -/

/-- The state of a `Route` object: its `_conf` dict plus
`last_idx` / `has_set_default_ipv4` / `has_set_default_ipv6` and the
constructor arguments. -/
structure Route where
  conf : KVList
  last_idx : Nat
  has_set_default_ipv4 : Bool
  has_set_default_ipv6 : Bool
  route_name : String
  base_sysconf_dir : String
deriving DecidableEq, Repr

/-- `Route.__init__`. -/
def Route.init (route_name base_sysconf_dir : String) : Route :=
  { conf := [], last_idx := 1, has_set_default_ipv4 := false,
    has_set_default_ipv6 := false, route_name := route_name,
    base_sysconf_dir := base_sysconf_dir }

/-- `Route.path_ipv4` (template `%(base)s/network-scripts/route-%(name)s`). -/
def Route.path_ipv4 (r : Route) : String :=
  r.base_sysconf_dir ++ "/network-scripts/route-" ++ r.route_name

/-- `Route.path_ipv6` (template `%(base)s/network-scripts/route6-%(name)s`). -/
def Route.path_ipv6 (r : Route) : String :=
  r.base_sysconf_dir ++ "/network-scripts/route6-" ++ r.route_name

/-- `Route.is_ipv6_route`: `':' in address`. -/
def Route.is_ipv6_route (address : String) : Bool := hasColon address

/-! ### NetInterface (`class NetInterface(ConfigMap)`) -/

/-- `NetInterface.iface_types`. -/
def iface_types : List (String × String) :=
  [("ethernet", "Ethernet"), ("bond", "Bond"), ("bridge", "Bridge")]

/-- Association-list lookup for string-valued tables. -/
def lookupStr : List (String × String) → String → Option String
  | [], _ => none
  | (k', v) :: rest, k => if k' = k then some v else lookupStr rest k

/-- The state of a `NetInterface` object. -/
structure NetInterface where
  conf : KVList
  children : List NetInterface
  routes : Route
  iface_name : String
  kind : String
  base_sysconf_dir : String

/-- `NetInterface.path` (template `%(base)s/network-scripts/ifcfg-%(name)s`). -/
def NetInterface.path (i : NetInterface) : String :=
  i.base_sysconf_dir ++ "/network-scripts/ifcfg-" ++ i.iface_name

/-- The `kind` property setter: validates against `iface_types`
(`raise ValueError(kind)` otherwise) and rewrites `TYPE` in the same
step. -/
def NetInterface.setKind (i : NetInterface) (kind : String) : Except Err NetInterface :=
  match lookupStr iface_types kind with
  | none => .error (.invalidKind kind)
  | some label => .ok { i with kind := kind, conf := setKV i.conf "TYPE" (.s label) }

/-- The `name` property setter: stores the name and rewrites `DEVICE` in
the same step. -/
def NetInterface.setName (i : NetInterface) (iface_name : String) : NetInterface :=
  { i with iface_name := iface_name, conf := setKV i.conf "DEVICE" (.s iface_name) }

/-- `NetInterface.__init__`: empty conf, no children, fresh `Route`, then
the `kind` setter (which writes `TYPE`), then `DEVICE = iface_name`. -/
def NetInterface.init (iface_name base_sysconf_dir kind : String) :
    Except Err NetInterface := do
  let start : NetInterface :=
    { conf := [], children := [], routes := Route.init iface_name base_sysconf_dir,
      iface_name := iface_name, kind := "", base_sysconf_dir := base_sysconf_dir }
  let i ← start.setKind kind
  pure (i.setName iface_name)

/-- C9: `TYPE` always equals the label of the current kind and `DEVICE`
always equals the current name: the kind setter rewrites `TYPE` in the
same step (failing for kinds outside ethernet/bond/bridge), the name
setter rewrites `DEVICE` in the same step, and the constructor
establishes both. -/
theorem netinterface_type_device_lockstep :
    ∀ (i : NetInterface) (k n b : String),
      (k ∉ ["ethernet", "bond", "bridge"] → i.setKind k = .error (.invalidKind k)) ∧
      (∀ i', i.setKind k = .ok i' →
        lookupKV i'.conf "TYPE" = (lookupStr iface_types k).map PyVal.s ∧
        i'.kind = k ∧
        lookupKV i'.conf "DEVICE" = lookupKV i.conf "DEVICE" ∧
        i'.iface_name = i.iface_name) ∧
      (lookupKV (i.setName n).conf "DEVICE" = some (.s n) ∧
        (i.setName n).iface_name = n ∧
        lookupKV (i.setName n).conf "TYPE" = lookupKV i.conf "TYPE" ∧
        (i.setName n).kind = i.kind) ∧
      (∀ i', NetInterface.init n b k = .ok i' →
        lookupKV i'.conf "TYPE" = (lookupStr iface_types k).map PyVal.s ∧
        lookupKV i'.conf "DEVICE" = some (.s n) ∧
        i'.kind = k ∧ i'.iface_name = n) := by
  intro i k n b
  refine ⟨?_, ?_, ?_, ?_⟩
  · intro hk
    simp only [List.mem_cons, List.mem_singleton, not_or] at hk
    obtain ⟨h1, h2, h3, -⟩ := hk
    simp [NetInterface.setKind, lookupStr, iface_types,
      Ne.symm h1, Ne.symm h2, Ne.symm h3]
  · intro i' h
    rw [NetInterface.setKind] at h
    cases hl : lookupStr iface_types k with
    | none => rw [hl] at h; exact Except.noConfusion h
    | some label =>
      rw [hl] at h
      cases h
      refine ⟨?_, rfl, ?_, rfl⟩
      · rw [lookup_setKV_self]
        rfl
      · exact lookup_setKV_ne i.conf (.s label) (by decide)
  · refine ⟨lookup_setKV_self _ _ _, rfl, ?_, rfl⟩
    exact lookup_setKV_ne i.conf (.s n) (by decide)
  · intro i' h
    rw [NetInterface.init] at h
    cases hl : lookupStr iface_types k with
    | none =>
      rw [NetInterface.setKind, hl] at h
      exact Except.noConfusion h
    | some label =>
      rw [NetInterface.setKind, hl] at h
      cases h
      refine ⟨?_, ?_, rfl, rfl⟩
      · rw [NetInterface.setName]
        simp only
        rw [lookup_setKV_ne _ (.s n) (by decide), lookup_setKV_self]
        rfl
      · rw [NetInterface.setName]
        simp only
        rw [lookup_setKV_self]

/-- Witness for C9 at concrete interfaces, kinds and names. -/
theorem netinterface_type_device_lockstep_witness :
    NetInterface.setKind
        ⟨[], [], Route.init "eth0" "b", "eth0", "ethernet", "b"⟩ "foo"
      = .error (.invalidKind "foo") ∧
    lookupKV ((NetInterface.setName
        ⟨[("TYPE", .s "Ethernet")], [], Route.init "eth0" "b", "eth0", "ethernet", "b"⟩
        "eth1").conf) "DEVICE" = some (.s "eth1") ∧
    (∀ i', NetInterface.init "eth2" "b" "bond" = .ok i' →
      lookupKV i'.conf "TYPE" = some (.s "Bond")) := by
  refine ⟨?_, ?_, ?_⟩
  · exact (netinterface_type_device_lockstep
      ⟨[], [], Route.init "eth0" "b", "eth0", "ethernet", "b"⟩ "foo" "x" "b").1
      (by decide)
  · exact (netinterface_type_device_lockstep
      ⟨[("TYPE", .s "Ethernet")], [], Route.init "eth0" "b", "eth0", "ethernet", "b"⟩
      "x" "eth1" "b").2.2.1.1
  · intro i' h
    have := ((netinterface_type_device_lockstep
      ⟨[], [], Route.init "eth0" "b", "eth0", "ethernet", "b"⟩
      "bond" "eth2" "b").2.2.2 i' h).1
    simpa [lookupStr, iface_types] using this

/-! ### Subnets and routes from the network_state graph -/

/-- One route dict attached to a subnet.  `_is_default_route` indexes
`route['network']` and `route['netmask']` directly, so both are present
on any route that gets rendered; `gateway` is probed with
`'gateway' in route` and is optional. -/
structure RouteDict where
  network : PyVal
  netmask : PyVal
  gateway : Option PyVal
deriving DecidableEq, Repr

/-- `_is_default_route`: the exact comparisons of the source
(`network == '::' and netmask == 0`, or
`network == '0.0.0.0' and netmask == '0.0.0.0'`), with Python `==`. -/
def is_default_route (route : RouteDict) : Bool :=
  (pyEq route.network (.s "::") && pyEq route.netmask (.i 0)) ||
    (pyEq route.network (.s "0.0.0.0") && pyEq route.netmask (.s "0.0.0.0"))

/-- One subnet dict from the network_state graph, restricted to the keys
this module reads.  `type` is read with `.get` (absent gives `None`),
`netmask` with `'netmask' in subnet`, `routes` with
`.get('routes', [])`, and the `ipv4`/`ipv6` flags with truthy `.get`;
`address` is indexed directly but only on `static` subnets, so we carry
a total field that non-static subnets never read. -/
structure Subnet where
  type_ : Option String
  address : String
  netmask : Option PyVal
  routes : List RouteDict
  ipv4 : Bool
  ipv6 : Bool
deriving DecidableEq, Repr

/-- `_subnet_is_ipv6`.  The source indexes `subnet['type']` directly; its
call sites only run on subnets whose type is `'static'`, so the `none`
branch here is never reached from the renderer. -/
def subnet_is_ipv6 (subnet : Subnet) : Bool :=
  match subnet.type_ with
  | some t => strEndsWith t "6" || (t = "static" && hasColon subnet.address)
  | none => false

/-! ### `Renderer._render_subnets`

The Python `enumerate(subnets, start=len(iface_cfg.children))` indices
are never used in either loop body, so both scans are plain iterations
over the subnet list. -/

/-- First scan of `_render_subnets` (the type dispatch). -/
def render_subnets_scan1 (iface_name : String) (cfg : KVList) :
    List Subnet → Except Err KVList
  | [] => .ok cfg
  | s :: rest =>
    if s.type_ = some "dhcp6" then
      render_subnets_scan1 iface_name
        (setKV (setKV (setKV cfg "IPV6INIT" (.b true)) "DHCPV6C" (.b true))
          "BOOTPROTO" (.s "none")) rest
    else if s.type_ = some "dhcp4" ∨ s.type_ = some "dhcp" then
      render_subnets_scan1 iface_name (setKV cfg "BOOTPROTO" (.s "none")) rest
    else if s.type_ = some "static" then
      if subnet_is_ipv6 s then
        render_subnets_scan1 iface_name (setKV cfg "IPV6INIT" (.b true)) rest
      else
        render_subnets_scan1 iface_name cfg rest
    else
      .error (.unknownSubnetType s.type_ iface_name)

/-- The key the `n`-th static IPv4 subnet's address goes to: the
source's inline `if ipv4_index == 0 then 'IPADDR' else 'IPADDR' + str(i)`
(`IPADDR` for the first, `IPADDR<n>` after). -/
def ipaddrKey (k : Nat) : String :=
  if k = 0 then "IPADDR" else "IPADDR" ++ natStr k

/-- The key the `n`-th static IPv4 subnet's netmask goes to. -/
def netmaskKey (k : Nat) : String :=
  if k = 0 then "NETMASK" else "NETMASK" ++ natStr k

/-- The CIDR string built for a static IPv6 subnet:
`address + '/' + str(netmask)` when a netmask is present and stringifies
non-empty, otherwise the bare address. -/
def ipv6CidrOf (s : Subnet) : String :=
  match s.netmask with
  | some nm => if pyStr nm ≠ "" then s.address ++ "/" ++ pyStr nm else s.address
  | none => s.address

/-- Second scan of `_render_subnets` (static address assignment).
`ipv4_index`/`ipv6_index` hold the number of static subnets of the
family already processed (the Python code starts the indices at `-1` and
pre-increments, which is the same numbering). -/
def render_subnets_scan2 (cfg : KVList) (ipv4_index ipv6_index : Nat) :
    List Subnet → Except Err KVList
  | [] => .ok cfg
  | s :: rest =>
    if s.type_ = some "dhcp6" then
      render_subnets_scan2 cfg ipv4_index ipv6_index rest
    else if s.type_ = some "dhcp4" ∨ s.type_ = some "dhcp" then
      render_subnets_scan2 cfg ipv4_index ipv6_index rest
    else if s.type_ = some "static" then
      if subnet_is_ipv6 s then
        if ipv6_index = 0 then
          render_subnets_scan2 (setKV cfg "IPV6ADDR" (.s (ipv6CidrOf s)))
            ipv4_index (ipv6_index + 1) rest
        else if ipv6_index = 1 then
          render_subnets_scan2 (setKV cfg "IPV6ADDR_SECONDARIES" (.s (ipv6CidrOf s)))
            ipv4_index (ipv6_index + 1) rest
        else
          -- `iface_cfg['IPV6ADDR_SECONDARIES'] + " " + ipv6_cidr`:
          -- a missing key would raise KeyError, a non-string TypeError.
          match lookupKV cfg "IPV6ADDR_SECONDARIES" with
          | some (.s prev) =>
            render_subnets_scan2
              (setKV cfg "IPV6ADDR_SECONDARIES" (.s (prev ++ " " ++ ipv6CidrOf s)))
              ipv4_index (ipv6_index + 1) rest
          | some _ => .error (.typeError "IPV6ADDR_SECONDARIES")
          | none => .error (.keyError "IPV6ADDR_SECONDARIES")
      else
        let cfg1 := setKV cfg (ipaddrKey ipv4_index) (.s s.address)
        let cfg2 :=
          match s.netmask with
          | some nm => setKV cfg1 (netmaskKey ipv4_index) nm
          | none => cfg1
        render_subnets_scan2 cfg2 (ipv4_index + 1) ipv6_index rest
    else
      -- the second loop has no `else` clause: other types fall through
      -- (the first scan has already raised for them)
      render_subnets_scan2 cfg ipv4_index ipv6_index rest

/-- `Renderer._render_subnets`: seed `BOOTPROTO=none`, run the type
dispatch scan, then the static-address scan. -/
def render_subnets (iface_name : String) (cfg : KVList) (subnets : List Subnet) :
    Except Err KVList := do
  let cfg2 ← render_subnets_scan1 iface_name (setKV cfg "BOOTPROTO" (.s "none")) subnets
  render_subnets_scan2 cfg2 0 0 subnets

theorem scan1_unknown_type {s : Subnet} (iface_name : String)
    (hty : s.type_ ∉ [some "dhcp6", some "dhcp4", some "dhcp", some "static"]) :
    ∀ (subnets : List Subnet) (cfg : KVList), s ∈ subnets →
      ∃ t, render_subnets_scan1 iface_name cfg subnets =
        .error (.unknownSubnetType t iface_name) := by
  intro subnets
  induction subnets with
  | nil => intro cfg h; cases h
  | cons s0 rest ih =>
    intro cfg hmem
    simp only [List.mem_cons] at hmem
    by_cases h6 : s0.type_ = some "dhcp6"
    · have hs : s ∈ rest := by
        rcases hmem with rfl | hmem
        · exact absurd (by simp [h6]) hty
        · exact hmem
      rw [render_subnets_scan1, if_pos h6]
      exact ih _ hs
    · by_cases h4 : s0.type_ = some "dhcp4" ∨ s0.type_ = some "dhcp"
      · have hs : s ∈ rest := by
          rcases hmem with rfl | hmem
          · rcases h4 with h4 | h4 <;> exact absurd (by simp [h4]) hty
          · exact hmem
        rw [render_subnets_scan1, if_neg h6, if_pos h4]
        exact ih _ hs
      · by_cases hst : s0.type_ = some "static"
        · have hs : s ∈ rest := by
            rcases hmem with rfl | hmem
            · exact absurd (by simp [hst]) hty
            · exact hmem
          rw [render_subnets_scan1, if_neg h6, if_neg h4, if_pos hst]
          by_cases hv : subnet_is_ipv6 s0 = true
          · rw [if_pos hv]; exact ih _ hs
          · rw [if_neg hv]; exact ih _ hs
        · refine ⟨s0.type_, ?_⟩
          rw [render_subnets_scan1, if_neg h6, if_neg h4, if_neg hst]

/-- C6: a subnet whose type string is not one of `dhcp6`, `dhcp4`,
`dhcp`, `static` makes `_render_subnets` fail with the
unknown-subnet-type error (synchronously propagated, nothing
swallowed). -/
theorem render_subnets_unknown_subnet_type (iface_name : String) (cfg : KVList)
    (subnets : List Subnet) (s : Subnet) (hmem : s ∈ subnets)
    (hty : s.type_ ∉ [some "dhcp6", some "dhcp4", some "dhcp", some "static"]) :
    ∃ t, render_subnets iface_name cfg subnets =
      .error (.unknownSubnetType t iface_name) := by
  obtain ⟨t, ht⟩ := scan1_unknown_type iface_name hty subnets
    (setKV cfg "BOOTPROTO" (.s "none")) hmem
  refine ⟨t, ?_⟩
  rw [render_subnets]
  rw [ht]
  rfl

/-- Witness for C6 at a concrete subnet of type `"foo"`. -/
theorem render_subnets_unknown_subnet_type_witness :
    ∃ t, render_subnets "eth0" []
        [⟨some "foo", "", none, [], false, false⟩] =
      .error (.unknownSubnetType t "eth0") :=
  render_subnets_unknown_subnet_type "eth0" []
    [⟨some "foo", "", none, [], false, false⟩]
    ⟨some "foo", "", none, [], false, false⟩ (by simp) (by decide)

/-! ### `Renderer._render_subnet_routes`

The loop body for one route.  The enumerate index is unused.  In the
non-default branch the Python code writes, in this order and each
guarded by `old_key in route`: `gateway`, `netmask`, `network`
(`network`/`netmask` are always present on a route that has passed
through `_is_default_route`). -/

def process_route (iface_name : String) (subnet : Subnet)
    (iface_conf : KVList) (route_cfg : Route) (route : RouteDict) :
    Except Err (KVList × Route) :=
  let is_ipv6 := subnet.ipv6
  if is_default_route route then
    if (subnet.ipv4 && route_cfg.has_set_default_ipv4) ||
        (subnet.ipv6 && route_cfg.has_set_default_ipv6) then
      .error (.duplicateDefaultRoute iface_name)
    else
      -- gw_key/nm_key/addr_key are assigned to the `0` names here in the
      -- source but never used in this branch
      let iface_conf := setKV iface_conf "DEFROUTE" (.b true)
      match route.gateway with
      | some gw =>
        if is_ipv6 then
          .ok (setKV iface_conf "IPV6_DEFAULTGW" gw,
            { route_cfg with has_set_default_ipv6 := true })
        else
          .ok (setKV iface_conf "GATEWAY" gw,
            { route_cfg with has_set_default_ipv4 := true })
      | none => .ok (iface_conf, route_cfg)
  else
    let gw_key := "GATEWAY" ++ natStr route_cfg.last_idx
    let nm_key := "NETMASK" ++ natStr route_cfg.last_idx
    let addr_key := "ADDRESS" ++ natStr route_cfg.last_idx
    let conf1 :=
      match route.gateway with
      | some gw => setKV route_cfg.conf gw_key gw
      | none => route_cfg.conf
    let conf2 := setKV conf1 nm_key route.netmask
    let conf3 := setKV conf2 addr_key route.network
    .ok (iface_conf,
      { route_cfg with conf := conf3, last_idx := route_cfg.last_idx + 1 })

/-- The inner `for route in subnet.get('routes', [])` loop. -/
def process_routes_list (iface_name : String) (subnet : Subnet) :
    KVList × Route → List RouteDict → Except Err (KVList × Route)
  | st, [] => .ok st
  | st, r :: rest => do
    let st' ← process_route iface_name subnet st.1 st.2 r
    process_routes_list iface_name subnet st' rest

/-- `Renderer._render_subnet_routes`. -/
def render_subnet_routes (iface_name : String) :
    KVList × Route → List Subnet → Except Err (KVList × Route)
  | st, [] => .ok st
  | st, s :: rest => do
    let st' ← process_routes_list iface_name s st s.routes
    render_subnet_routes iface_name st' rest

/-! Key distinctness: the `ADDRESS<n>`/`GATEWAY<n>`/`NETMASK<n>` families
start with different characters, so keys from different families never
collide. -/

theorem strNe_of_data_head {s t : String} {c d : Char} {l m : List Char}
    (hs : s.data = c :: l) (ht : t.data = d :: m) (hcd : c ≠ d) : s ≠ t := by
  intro h
  rw [h, ht] at hs
  cases hs
  exact hcd rfl

theorem strData_append (s t : String) : (s ++ t).data = s.data ++ t.data := rfl

theorem addr_ne_nm (x y : String) : ("ADDRESS" ++ x) ≠ ("NETMASK" ++ y) :=
  strNe_of_data_head (c := 'A') (d := 'N') (l := "DDRESS".data ++ x.data)
    (m := "ETMASK".data ++ y.data) rfl rfl (by decide)

theorem addr_ne_gw (x y : String) : ("ADDRESS" ++ x) ≠ ("GATEWAY" ++ y) :=
  strNe_of_data_head (c := 'A') (d := 'G') (l := "DDRESS".data ++ x.data)
    (m := "ATEWAY".data ++ y.data) rfl rfl (by decide)

theorem nm_ne_gw (x y : String) : ("NETMASK" ++ x) ≠ ("GATEWAY" ++ y) :=
  strNe_of_data_head (c := 'N') (d := 'G') (l := "ETMASK".data ++ x.data)
    (m := "ATEWAY".data ++ y.data) rfl rfl (by decide)

theorem except_bind_ok {α β : Type} (v : α) (f : α → Except Err β) :
    (Except.ok v >>= f) = f v := rfl

theorem except_bind_error {α β : Type} (e : Err) (f : α → Except Err β) :
    ((Except.error e : Except Err α) >>= f) = Except.error e := rfl

/-- C1: a default route (canonical all-zeros network/netmask for its
family) with a gateway is written onto the owning interface config as
`DEFROUTE=true` plus `IPV6_DEFAULTGW` (IPv6) or `GATEWAY` (IPv4), sets
the matching default-route flag and leaves the route store untouched; a
non-default route consumes `last_idx` and is appended to the route store
under `ADDRESS<n>`/`GATEWAY<n>`/`NETMASK<n>`.  (The IPv4/IPv6 dispatch in
the source keys off the subnet's `ipv6` flag, which for well-formed
network_state input agrees with the route's family, as hypothesised
here.) -/
theorem process_route_default_and_indexed_rendering :
    ∀ (iface_name : String) (subnet : Subnet) (iface_conf : KVList)
      (route_cfg : Route) (route : RouteDict) (gw : PyVal),
      route_cfg.has_set_default_ipv4 = false →
      route_cfg.has_set_default_ipv6 = false →
      (((pyEq route.network (.s "::") && pyEq route.netmask (.i 0)) = true →
        subnet.ipv6 = true → route.gateway = some gw →
        ∃ ic rc, process_route iface_name subnet iface_conf route_cfg route =
            .ok (ic, rc) ∧
          lookupKV ic "DEFROUTE" = some (.b true) ∧
          lookupKV ic "IPV6_DEFAULTGW" = some gw ∧
          rc.has_set_default_ipv6 = true ∧
          rc.conf = route_cfg.conf ∧ rc.last_idx = route_cfg.last_idx) ∧
      ((pyEq route.network (.s "0.0.0.0") && pyEq route.netmask (.s "0.0.0.0")) = true →
        subnet.ipv6 = false → route.gateway = some gw →
        ∃ ic rc, process_route iface_name subnet iface_conf route_cfg route =
            .ok (ic, rc) ∧
          lookupKV ic "DEFROUTE" = some (.b true) ∧
          lookupKV ic "GATEWAY" = some gw ∧
          rc.has_set_default_ipv4 = true ∧
          rc.conf = route_cfg.conf ∧ rc.last_idx = route_cfg.last_idx) ∧
      (is_default_route route = false →
        ∃ ic rc, process_route iface_name subnet iface_conf route_cfg route =
            .ok (ic, rc) ∧
          ic = iface_conf ∧
          rc.last_idx = route_cfg.last_idx + 1 ∧
          lookupKV rc.conf ("ADDRESS" ++ natStr route_cfg.last_idx) =
            some route.network ∧
          lookupKV rc.conf ("NETMASK" ++ natStr route_cfg.last_idx) =
            some route.netmask ∧
          (route.gateway = some gw →
            lookupKV rc.conf ("GATEWAY" ++ natStr route_cfg.last_idx) = some gw))) := by
  intro iface_name subnet iface_conf route_cfg route gw h4 h6
  refine ⟨?_, ?_, ?_⟩
  · intro hdef hsub hgw
    have hisdef : is_default_route route = true := by
      rw [is_default_route, hdef]; rfl
    have hok : process_route iface_name subnet iface_conf route_cfg route =
        .ok (setKV (setKV iface_conf "DEFROUTE" (.b true)) "IPV6_DEFAULTGW" gw,
          { route_cfg with has_set_default_ipv6 := true }) := by
      rw [process_route]
      simp only [hisdef, if_true, h4, h6, hsub, hgw, Bool.and_false,
        Bool.or_self, Bool.false_eq_true, if_false]
    refine ⟨_, _, hok, ?_, lookup_setKV_self _ _ _, rfl, rfl, rfl⟩
    rw [lookup_setKV_ne _ _ (by decide), lookup_setKV_self]
  · intro hdef hsub hgw
    have hisdef : is_default_route route = true := by
      rw [is_default_route, hdef]; simp
    have hok : process_route iface_name subnet iface_conf route_cfg route =
        .ok (setKV (setKV iface_conf "DEFROUTE" (.b true)) "GATEWAY" gw,
          { route_cfg with has_set_default_ipv4 := true }) := by
      rw [process_route]
      simp only [hisdef, if_true, h4, h6, hsub, hgw, Bool.and_false,
        Bool.or_self, Bool.false_eq_true, if_false]
    refine ⟨_, _, hok, ?_, lookup_setKV_self _ _ _, rfl, rfl, rfl⟩
    rw [lookup_setKV_ne _ _ (by decide), lookup_setKV_self]
  · intro hdef
    have hok : process_route iface_name subnet iface_conf route_cfg route =
        .ok (iface_conf,
          { route_cfg with
              conf := setKV (setKV
                  (match route.gateway with
                   | some gw' =>
                     setKV route_cfg.conf ("GATEWAY" ++ natStr route_cfg.last_idx) gw'
                   | none => route_cfg.conf)
                  ("NETMASK" ++ natStr route_cfg.last_idx) route.netmask)
                ("ADDRESS" ++ natStr route_cfg.last_idx) route.network,
              last_idx := route_cfg.last_idx + 1 }) := by
      rw [process_route]
      simp only [hdef, Bool.false_eq_true, if_false]
    refine ⟨_, _, hok, rfl, rfl, ?_, ?_, ?_⟩
    · exact lookup_setKV_self _ _ _
    · rw [lookup_setKV_ne _ _ (addr_ne_nm _ _).symm, lookup_setKV_self]
    · intro hgw
      rw [hgw]
      rw [lookup_setKV_ne _ _ (addr_ne_gw _ _).symm,
        lookup_setKV_ne _ _ (nm_ne_gw _ _).symm, lookup_setKV_self]

/-- Witness for C1: an IPv6 default route, an IPv4 default route and an
ordinary IPv4 route, each on a matching concrete subnet. -/
theorem process_route_default_and_indexed_rendering_witness :
    (∃ ic rc, process_route "eth0"
        ⟨some "static", "2001:db8::2", none, [], false, true⟩ []
        (Route.init "eth0" "b") ⟨.s "::", .i 0, some (.s "fe80::1")⟩ =
          .ok (ic, rc) ∧
      lookupKV ic "DEFROUTE" = some (.b true) ∧
      lookupKV ic "IPV6_DEFAULTGW" = some (.s "fe80::1") ∧
      rc.has_set_default_ipv6 = true ∧
      rc.conf = (Route.init "eth0" "b").conf ∧
      rc.last_idx = (Route.init "eth0" "b").last_idx) ∧
    (∃ ic rc, process_route "eth0"
        ⟨some "static", "10.0.0.2", none, [], true, false⟩ []
        (Route.init "eth0" "b") ⟨.s "0.0.0.0", .s "0.0.0.0", some (.s "10.0.0.1")⟩ =
          .ok (ic, rc) ∧
      lookupKV ic "DEFROUTE" = some (.b true) ∧
      lookupKV ic "GATEWAY" = some (.s "10.0.0.1") ∧
      rc.has_set_default_ipv4 = true ∧
      rc.conf = (Route.init "eth0" "b").conf ∧
      rc.last_idx = (Route.init "eth0" "b").last_idx) ∧
    (∃ ic rc, process_route "eth0"
        ⟨some "static", "10.0.0.2", none, [], true, false⟩ []
        (Route.init "eth0" "b") ⟨.s "192.168.1.0", .s "255.255.255.0",
          some (.s "10.0.0.1")⟩ = .ok (ic, rc) ∧
      ic = [] ∧
      rc.last_idx = (Route.init "eth0" "b").last_idx + 1 ∧
      lookupKV rc.conf ("ADDRESS" ++ natStr (Route.init "eth0" "b").last_idx) =
        some (.s "192.168.1.0") ∧
      lookupKV rc.conf ("NETMASK" ++ natStr (Route.init "eth0" "b").last_idx) =
        some (.s "255.255.255.0") ∧
      lookupKV rc.conf ("GATEWAY" ++ natStr (Route.init "eth0" "b").last_idx) =
        some (.s "10.0.0.1")) := by
  refine ⟨?_, ?_, ?_⟩
  · exact (process_route_default_and_indexed_rendering "eth0"
      ⟨some "static", "2001:db8::2", none, [], false, true⟩ []
      (Route.init "eth0" "b") ⟨.s "::", .i 0, some (.s "fe80::1")⟩
      (.s "fe80::1") rfl rfl).1 (by decide) rfl rfl
  · exact (process_route_default_and_indexed_rendering "eth0"
      ⟨some "static", "10.0.0.2", none, [], true, false⟩ []
      (Route.init "eth0" "b") ⟨.s "0.0.0.0", .s "0.0.0.0", some (.s "10.0.0.1")⟩
      (.s "10.0.0.1") rfl rfl).2.1 (by decide) rfl rfl
  · have h := (process_route_default_and_indexed_rendering "eth0"
      ⟨some "static", "10.0.0.2", none, [], true, false⟩ []
      (Route.init "eth0" "b") ⟨.s "192.168.1.0", .s "255.255.255.0",
        some (.s "10.0.0.1")⟩ (.s "10.0.0.1") rfl rfl).2.2 (by decide)
    obtain ⟨ic, rc, h1, h2, h3, h4, h5, h6⟩ := h
    exact ⟨ic, rc, h1, h2, h3, h4, h5, h6 rfl⟩

/-- C2: once a default route of a family has been recorded
(`has_set_default_*` true), rendering another default route of that
family on the same interface fails with the duplicate-default-route
error; the error propagates through `_render_subnet_routes` to the
caller. -/
theorem process_route_duplicate_default_route :
    ∀ (iface_name : String) (subnet : Subnet) (iface_conf : KVList)
      (route_cfg : Route) (route : RouteDict),
      is_default_route route = true →
      ((subnet.ipv4 = true → route_cfg.has_set_default_ipv4 = true →
        process_route iface_name subnet iface_conf route_cfg route =
          .error (.duplicateDefaultRoute iface_name)) ∧
       (subnet.ipv6 = true → route_cfg.has_set_default_ipv6 = true →
        process_route iface_name subnet iface_conf route_cfg route =
          .error (.duplicateDefaultRoute iface_name)) ∧
       (∀ r1 (g1 : PyVal), subnet.routes = [r1, route] →
        is_default_route r1 = true → r1.gateway = some g1 →
        subnet.ipv4 = true → subnet.ipv6 = false →
        route_cfg.has_set_default_ipv4 = false →
        route_cfg.has_set_default_ipv6 = false →
        render_subnet_routes iface_name (iface_conf, route_cfg) [subnet] =
          .error (.duplicateDefaultRoute iface_name))) := by
  intro iface_name subnet iface_conf route_cfg route hdef
  refine ⟨?_, ?_, ?_⟩
  · intro h4 hset
    rw [process_route]
    simp [hdef, h4, hset]
  · intro h6 hset
    rw [process_route]
    simp [hdef, h6, hset]
  · intro r1 g1 hroutes hdef1 hg1 h4 h6 hf4 hf6
    have e1 : process_route iface_name subnet iface_conf route_cfg r1 =
        .ok (setKV (setKV iface_conf "DEFROUTE" (.b true)) "GATEWAY" g1,
          { route_cfg with has_set_default_ipv4 := true }) := by
      rw [process_route]
      simp only [hdef1, if_true, hf4, hf6, Bool.and_false, Bool.or_self,
        Bool.false_eq_true, if_false, hg1, h6]
    have e2 : process_route iface_name subnet
        (setKV (setKV iface_conf "DEFROUTE" (.b true)) "GATEWAY" g1)
        { route_cfg with has_set_default_ipv4 := true } route =
        .error (.duplicateDefaultRoute iface_name) := by
      rw [process_route]
      simp [hdef, h4]
    simp only [render_subnet_routes, hroutes, process_routes_list, e1,
      except_bind_ok, e2, except_bind_error]

/-- Witness for C2 at a concrete interface that has already recorded an
IPv4 default route. -/
theorem process_route_duplicate_default_route_witness :
    process_route "eth0" ⟨some "static", "10.0.0.2", none, [], true, false⟩ []
      ⟨[], 1, true, false, "eth0", "b"⟩ ⟨.s "0.0.0.0", .s "0.0.0.0",
        some (.s "10.0.0.1")⟩ = .error (.duplicateDefaultRoute "eth0") ∧
    render_subnet_routes "eth0" ([], Route.init "eth0" "b")
      [⟨some "static", "10.0.0.2", none,
        [⟨.s "0.0.0.0", .s "0.0.0.0", some (.s "10.0.0.1")⟩,
         ⟨.s "0.0.0.0", .s "0.0.0.0", some (.s "10.0.0.9")⟩], true, false⟩] =
      .error (.duplicateDefaultRoute "eth0") := by
  constructor
  · exact (process_route_duplicate_default_route "eth0"
      ⟨some "static", "10.0.0.2", none, [], true, false⟩ []
      ⟨[], 1, true, false, "eth0", "b"⟩
      ⟨.s "0.0.0.0", .s "0.0.0.0", some (.s "10.0.0.1")⟩ (by decide)).1 rfl rfl
  · exact (process_route_duplicate_default_route "eth0"
      ⟨some "static", "10.0.0.2", none,
        [⟨.s "0.0.0.0", .s "0.0.0.0", some (.s "10.0.0.1")⟩,
         ⟨.s "0.0.0.0", .s "0.0.0.0", some (.s "10.0.0.9")⟩], true, false⟩ []
      (Route.init "eth0" "b")
      ⟨.s "0.0.0.0", .s "0.0.0.0", some (.s "10.0.0.9")⟩ (by decide)).2.2
      ⟨.s "0.0.0.0", .s "0.0.0.0", some (.s "10.0.0.1")⟩ (.s "10.0.0.1")
      rfl (by decide) rfl rfl rfl rfl rfl

/-- C10: a default route without a gateway still sets `DEFROUTE=true`
but writes neither `GATEWAY` nor `IPV6_DEFAULTGW` and leaves both
default-route flags unchanged, so a later default route of the same
family does not raise the duplicate-default-route error. -/
theorem process_route_default_without_gateway :
    ∀ (iface_name : String) (subnet : Subnet) (iface_conf : KVList)
      (route_cfg : Route) (route : RouteDict),
      is_default_route route = true →
      route.gateway = none →
      ((subnet.ipv4 && route_cfg.has_set_default_ipv4) ||
        (subnet.ipv6 && route_cfg.has_set_default_ipv6)) = false →
      (process_route iface_name subnet iface_conf route_cfg route =
        .ok (setKV iface_conf "DEFROUTE" (.b true), route_cfg) ∧
       lookupKV (setKV iface_conf "DEFROUTE" (.b true)) "DEFROUTE" =
         some (.b true) ∧
       lookupKV (setKV iface_conf "DEFROUTE" (.b true)) "GATEWAY" =
         lookupKV iface_conf "GATEWAY" ∧
       lookupKV (setKV iface_conf "DEFROUTE" (.b true)) "IPV6_DEFAULTGW" =
         lookupKV iface_conf "IPV6_DEFAULTGW" ∧
       (∀ (route2 : RouteDict) (ic2 : KVList), is_default_route route2 = true →
         route_cfg.has_set_default_ipv4 = false →
         route_cfg.has_set_default_ipv6 = false →
         ∃ st, process_route iface_name subnet ic2 route_cfg route2 = .ok st)) := by
  intro iface_name subnet iface_conf route_cfg route hdef hgw hdup
  refine ⟨?_, lookup_setKV_self _ _ _, ?_, ?_, ?_⟩
  · rw [process_route]
    simp only [hdef, if_true, hdup, Bool.false_eq_true, if_false, hgw]
  · exact lookup_setKV_ne _ _ (by decide)
  · exact lookup_setKV_ne _ _ (by decide)
  · intro route2 ic2 hdef2 hf4 hf6
    have hdup2 : ((subnet.ipv4 && route_cfg.has_set_default_ipv4) ||
        (subnet.ipv6 && route_cfg.has_set_default_ipv6)) = false := by
      rw [hf4, hf6]; simp
    rw [process_route]
    simp only [hdef2, if_true, hdup2, Bool.false_eq_true, if_false]
    cases hg2 : route2.gateway with
    | none => exact ⟨_, rfl⟩
    | some gw2 =>
      by_cases hip : subnet.ipv6 = true
      · simp only [hip, if_true]
        exact ⟨_, rfl⟩
      · simp only [Bool.not_eq_true] at hip
        simp only [hip, Bool.false_eq_true, if_false]
        exact ⟨_, rfl⟩

/-- Witness for C10: a gateway-less IPv4 default route followed by a
gatewayed one on the same interface. -/
theorem process_route_default_without_gateway_witness :
    process_route "eth0" ⟨some "static", "10.0.0.2", none, [], true, false⟩ []
      (Route.init "eth0" "b") ⟨.s "0.0.0.0", .s "0.0.0.0", none⟩ =
      .ok (setKV [] "DEFROUTE" (.b true), Route.init "eth0" "b") ∧
    (∃ st, process_route "eth0" ⟨some "static", "10.0.0.2", none, [], true, false⟩
      (setKV [] "DEFROUTE" (.b true)) (Route.init "eth0" "b")
      ⟨.s "0.0.0.0", .s "0.0.0.0", some (.s "10.0.0.1")⟩ = .ok st) := by
  have h := process_route_default_without_gateway "eth0"
    ⟨some "static", "10.0.0.2", none, [], true, false⟩ []
    (Route.init "eth0" "b") ⟨.s "0.0.0.0", .s "0.0.0.0", none⟩
    (by decide) rfl (by decide)
  exact ⟨h.1, h.2.2.2.2 ⟨.s "0.0.0.0", .s "0.0.0.0", some (.s "10.0.0.1")⟩
    (setKV [] "DEFROUTE" (.b true)) (by decide) rfl rfl⟩

/-! ### Decimal rendering is injective

Needed to tell `IPADDR1` from `IPADDR2`, etc. -/

/-- The numeric value of a decimal digit character. -/
def charVal (c : Char) : Nat := c.toNat - 48

/-- Decode a most-significant-first digit string. -/
def decodeDigits (l : List Char) : Nat :=
  l.foldl (fun acc c => acc * 10 + charVal c) 0

theorem charVal_digitChar : ∀ d, d < 10 → charVal (Nat.digitChar d) = d := by decide

theorem decode_natStrAux : ∀ (fuel n : Nat), n < fuel →
    decodeDigits (natStrAux fuel n) = n := by
  intro fuel
  induction fuel with
  | zero => intro n h; omega
  | succ fuel ih =>
    intro n h
    rw [natStrAux]
    by_cases h10 : n < 10
    · rw [if_pos h10]
      simp [decodeDigits, charVal_digitChar n h10]
    · rw [if_neg h10]
      have hdiv : n / 10 < fuel := by
        have h1 : n / 10 < n := Nat.div_lt_self (by omega) (by omega)
        omega
      have hIH := ih (n / 10) hdiv
      have hmod : charVal (Nat.digitChar (n % 10)) = n % 10 :=
        charVal_digitChar _ (Nat.mod_lt _ (by omega))
      simp only [decodeDigits, List.foldl_append, List.foldl_cons,
        List.foldl_nil] at hIH ⊢
      rw [hIH, hmod]
      omega

theorem natStr_inj {m n : Nat} (h : natStr m = natStr n) : m = n := by
  have hd : natStrAux (m + 1) m = natStrAux (n + 1) n := congrArg String.data h
  have h1 := decode_natStrAux (m + 1) m (by omega)
  have h2 := decode_natStrAux (n + 1) n (by omega)
  rw [hd] at h1
  rw [h2] at h1
  exact h1.symm

theorem natStrAux_ne_nil (n : Nat) : natStrAux (n + 1) n ≠ [] := by
  rw [natStrAux]
  by_cases h10 : n < 10
  · rw [if_pos h10]; simp
  · rw [if_neg h10]; simp

theorem ne_app_natStr (p : String) (k : Nat) : p ≠ p ++ natStr k := by
  intro h
  have hd := congrArg String.data h
  rw [strData_append] at hd
  have hlen := congrArg List.length hd
  rw [List.length_append] at hlen
  have hz : ((natStr k).data).length = 0 := by omega
  exact natStrAux_ne_nil k (List.eq_nil_of_length_eq_zero hz)

theorem app_natStr_inj {p : String} {j k : Nat}
    (h : p ++ natStr j = p ++ natStr k) : j = k := by
  have hd := congrArg String.data h
  rw [strData_append, strData_append] at hd
  exact natStr_inj (stringEqOfData (List.append_cancel_left hd))

/-! ### Facts about the static address keys -/

theorem ipaddrKey_inj {j k : Nat} (h : ipaddrKey j = ipaddrKey k) : j = k := by
  rw [ipaddrKey, ipaddrKey] at h
  by_cases hj : j = 0 <;> by_cases hk : k = 0
  · omega
  · rw [if_pos hj, if_neg hk] at h
    exact absurd h (ne_app_natStr _ _)
  · rw [if_neg hj, if_pos hk] at h
    exact absurd h.symm (ne_app_natStr _ _)
  · rw [if_neg hj, if_neg hk] at h
    exact app_natStr_inj h

theorem netmaskKey_inj {j k : Nat} (h : netmaskKey j = netmaskKey k) : j = k := by
  rw [netmaskKey, netmaskKey] at h
  by_cases hj : j = 0 <;> by_cases hk : k = 0
  · omega
  · rw [if_pos hj, if_neg hk] at h
    exact absurd h (ne_app_natStr _ _)
  · rw [if_neg hj, if_pos hk] at h
    exact absurd h.symm (ne_app_natStr _ _)
  · rw [if_neg hj, if_neg hk] at h
    exact app_natStr_inj h

theorem ipaddrKey_data (j : Nat) :
    ∃ l, (ipaddrKey j).data = 'I' :: 'P' :: 'A' :: l := by
  rw [ipaddrKey]
  by_cases hj : j = 0
  · rw [if_pos hj]; exact ⟨"DDR".data, rfl⟩
  · rw [if_neg hj]; exact ⟨"DDR".data ++ (natStr j).data, rfl⟩

theorem netmaskKey_data (j : Nat) : ∃ l, (netmaskKey j).data = 'N' :: l := by
  rw [netmaskKey]
  by_cases hj : j = 0
  · rw [if_pos hj]; exact ⟨"ETMASK".data, rfl⟩
  · rw [if_neg hj]; exact ⟨"ETMASK".data ++ (natStr j).data, rfl⟩

theorem strNe_of_data3 {s t : String} (c1 c2 c3 d1 d2 d3 : Char)
    {l m : List Char} (hs : s.data = c1 :: c2 :: c3 :: l)
    (ht : t.data = d1 :: d2 :: d3 :: m) (hne : c3 ≠ d3) : s ≠ t := by
  intro h
  have he : c1 :: c2 :: c3 :: l = d1 :: d2 :: d3 :: m := by
    rw [← hs, h, ht]
  injection he with _ he
  injection he with _ he
  injection he with h3 _
  exact hne h3

theorem ipaddrKey_ne_netmaskKey (j k : Nat) : ipaddrKey j ≠ netmaskKey k := by
  obtain ⟨l, hl⟩ := ipaddrKey_data j
  obtain ⟨m, hm⟩ := netmaskKey_data k
  exact strNe_of_data_head hl hm (by decide)

theorem ipaddrKey_ne_ipv6addr (j : Nat) : ipaddrKey j ≠ "IPV6ADDR" := by
  obtain ⟨l, hl⟩ := ipaddrKey_data j
  exact strNe_of_data3 'I' 'P' 'A' 'I' 'P' 'V' hl
    (m := "6ADDR".data) rfl (by decide)

theorem ipaddrKey_ne_ipv6sec (j : Nat) : ipaddrKey j ≠ "IPV6ADDR_SECONDARIES" := by
  obtain ⟨l, hl⟩ := ipaddrKey_data j
  exact strNe_of_data3 'I' 'P' 'A' 'I' 'P' 'V' hl
    (m := "6ADDR_SECONDARIES".data) rfl (by decide)

theorem netmaskKey_ne_ipv6addr (j : Nat) : netmaskKey j ≠ "IPV6ADDR" := by
  obtain ⟨m, hm⟩ := netmaskKey_data j
  exact strNe_of_data_head hm (d := 'I') (m := "PV6ADDR".data) rfl (by decide)

theorem netmaskKey_ne_ipv6sec (j : Nat) : netmaskKey j ≠ "IPV6ADDR_SECONDARIES" := by
  obtain ⟨m, hm⟩ := netmaskKey_data j
  exact strNe_of_data_head hm (d := 'I') (m := "PV6ADDR_SECONDARIES".data) rfl
    (by decide)

/-! ### The claim-side view of the static-address scan -/

/-- Static IPv4 subnets: `type == 'static'` and not IPv6-shaped. -/
def isV4Static (s : Subnet) : Bool :=
  decide (s.type_ = some "static") && !subnet_is_ipv6 s

/-- Static IPv6 subnets. -/
def isV6Static (s : Subnet) : Bool :=
  decide (s.type_ = some "static") && subnet_is_ipv6 s

/-- The static IPv4 subnets of a list, in order. -/
def v4Statics (subnets : List Subnet) : List Subnet := subnets.filter isV4Static

/-- The CIDR strings of the static IPv6 subnets of a list, in order. -/
def v6Cidrs (subnets : List Subnet) : List String :=
  (subnets.filter isV6Static).map ipv6CidrOf

/-- Space-separated join, the accumulated shape of
`IPV6ADDR_SECONDARIES`. -/
def spaceJoin : List String → String
  | [] => ""
  | [x] => x
  | x :: y :: rest => x ++ " " ++ spaceJoin (y :: rest)

theorem spaceJoin_cons (x : String) (l : List String) :
    spaceJoin (x :: l) = if l = [] then x else x ++ " " ++ spaceJoin l := by
  cases l <;> simp [spaceJoin]

theorem v4Statics_cons_skip {s : Subnet} (h : isV4Static s = false)
    (rest : List Subnet) : v4Statics (s :: rest) = v4Statics rest := by
  simp [v4Statics, List.filter_cons, h]

theorem v4Statics_cons_take {s : Subnet} (h : isV4Static s = true)
    (rest : List Subnet) : v4Statics (s :: rest) = s :: v4Statics rest := by
  simp [v4Statics, List.filter_cons, h]

theorem v6Cidrs_cons_skip {s : Subnet} (h : isV6Static s = false)
    (rest : List Subnet) : v6Cidrs (s :: rest) = v6Cidrs rest := by
  simp [v6Cidrs, List.filter_cons, h]

theorem v6Cidrs_cons_take {s : Subnet} (h : isV6Static s = true)
    (rest : List Subnet) : v6Cidrs (s :: rest) = ipv6CidrOf s :: v6Cidrs rest := by
  simp [v6Cidrs, List.filter_cons, h]

theorem isV4Static_true {s : Subnet} (hst : s.type_ = some "static")
    (hv6 : subnet_is_ipv6 s = false) : isV4Static s = true := by
  simp [isV4Static, hst, hv6]

theorem isV4Static_false_of_not_static {s : Subnet}
    (h : s.type_ ≠ some "static") : isV4Static s = false := by
  simp [isV4Static, h]

theorem isV4Static_false_of_v6 {s : Subnet}
    (hv6 : subnet_is_ipv6 s = true) : isV4Static s = false := by
  simp [isV4Static, hv6]

theorem isV6Static_true {s : Subnet} (hst : s.type_ = some "static")
    (hv6 : subnet_is_ipv6 s = true) : isV6Static s = true := by
  simp [isV6Static, hst, hv6]

theorem isV6Static_false_of_not_static {s : Subnet}
    (h : s.type_ ≠ some "static") : isV6Static s = false := by
  simp [isV6Static, h]

theorem isV6Static_false_of_v4 {s : Subnet}
    (hv6 : subnet_is_ipv6 s = false) : isV6Static s = false := by
  simp [isV6Static, hv6]

/-! ### Step equations for the static-address scan -/

theorem scan2_cons_skip {s : Subnet} (hst : s.type_ ≠ some "static")
    (cfg : KVList) (c4 c6 : Nat) (rest : List Subnet) :
    render_subnets_scan2 cfg c4 c6 (s :: rest) =
      render_subnets_scan2 cfg c4 c6 rest := by
  simp only [render_subnets_scan2]
  by_cases h6 : s.type_ = some "dhcp6"
  · rw [if_pos h6]
  · rw [if_neg h6]
    by_cases h4 : s.type_ = some "dhcp4" ∨ s.type_ = some "dhcp"
    · rw [if_pos h4]
    · rw [if_neg h4, if_neg hst]

theorem scan2_cons_v6_zero {s : Subnet} (hst : s.type_ = some "static")
    (hv6 : subnet_is_ipv6 s = true) (cfg : KVList) (c4 : Nat)
    (rest : List Subnet) :
    render_subnets_scan2 cfg c4 0 (s :: rest) =
      render_subnets_scan2 (setKV cfg "IPV6ADDR" (.s (ipv6CidrOf s))) c4 1 rest := by
  simp only [render_subnets_scan2]
  rw [if_neg (by rw [hst]; decide), if_neg (by rw [hst]; decide), if_pos hst,
    if_pos hv6]
  simp

theorem scan2_cons_v6_one {s : Subnet} (hst : s.type_ = some "static")
    (hv6 : subnet_is_ipv6 s = true) (cfg : KVList) (c4 : Nat)
    (rest : List Subnet) :
    render_subnets_scan2 cfg c4 1 (s :: rest) =
      render_subnets_scan2 (setKV cfg "IPV6ADDR_SECONDARIES" (.s (ipv6CidrOf s)))
        c4 2 rest := by
  simp only [render_subnets_scan2]
  rw [if_neg (by rw [hst]; decide), if_neg (by rw [hst]; decide), if_pos hst,
    if_pos hv6]
  simp

theorem scan2_cons_v6_ge2 {s : Subnet} (hst : s.type_ = some "static")
    (hv6 : subnet_is_ipv6 s = true) {cfg : KVList} {c6 : Nat} {p : String}
    (hc : 2 ≤ c6) (hp : lookupKV cfg "IPV6ADDR_SECONDARIES" = some (.s p))
    (c4 : Nat) (rest : List Subnet) :
    render_subnets_scan2 cfg c4 c6 (s :: rest) =
      render_subnets_scan2
        (setKV cfg "IPV6ADDR_SECONDARIES" (.s (p ++ " " ++ ipv6CidrOf s)))
        c4 (c6 + 1) rest := by
  simp only [render_subnets_scan2]
  rw [if_neg (by rw [hst]; decide), if_neg (by rw [hst]; decide), if_pos hst,
    if_pos hv6, if_neg (by omega), if_neg (by omega), hp]

theorem scan2_cons_v4 {s : Subnet} (hst : s.type_ = some "static")
    (hv6 : subnet_is_ipv6 s = false) (cfg : KVList) (c4 c6 : Nat)
    (rest : List Subnet) :
    render_subnets_scan2 cfg c4 c6 (s :: rest) =
      render_subnets_scan2
        (match s.netmask with
         | some nm =>
           setKV (setKV cfg (ipaddrKey c4) (.s s.address)) (netmaskKey c4) nm
         | none => setKV cfg (ipaddrKey c4) (.s s.address))
        (c4 + 1) c6 rest := by
  simp only [render_subnets_scan2]
  rw [if_neg (by rw [hst]; decide), if_neg (by rw [hst]; decide), if_pos hst,
    if_neg (by rw [hv6]; decide)]

/-- Full characterization of the static-address scan: starting from any
config and family counters `c4`/`c6`, the scan succeeds (given the
invariant that a counter `c6 >= 2` means `IPV6ADDR_SECONDARIES` already
holds a string) and the final value of every address key is determined
by the per-family sublists of static subnets. -/
theorem scan2_char :
    ∀ (subnets : List Subnet) (cfg : KVList) (c4 c6 : Nat),
      (2 ≤ c6 → ∃ p, lookupKV cfg "IPV6ADDR_SECONDARIES" = some (.s p)) →
      ∃ cfg', render_subnets_scan2 cfg c4 c6 subnets = .ok cfg' ∧
        (∀ q : String, (∀ j, q ≠ ipaddrKey (c4 + j)) →
          (∀ j, q ≠ netmaskKey (c4 + j)) →
          q ≠ "IPV6ADDR" → q ≠ "IPV6ADDR_SECONDARIES" →
          lookupKV cfg' q = lookupKV cfg q) ∧
        (∀ k, lookupKV cfg' (ipaddrKey (c4 + k)) =
          (match (v4Statics subnets)[k]? with
           | some s => some (.s s.address)
           | none => lookupKV cfg (ipaddrKey (c4 + k)))) ∧
        (∀ k, lookupKV cfg' (netmaskKey (c4 + k)) =
          (match (v4Statics subnets)[k]? with
           | some s =>
             match s.netmask with
             | some nm => some nm
             | none => lookupKV cfg (netmaskKey (c4 + k))
           | none => lookupKV cfg (netmaskKey (c4 + k)))) ∧
        (lookupKV cfg' "IPV6ADDR" =
          (if c6 = 0 then
            match (v6Cidrs subnets).head? with
            | some c => some (.s c)
            | none => lookupKV cfg "IPV6ADDR"
           else lookupKV cfg "IPV6ADDR")) ∧
        (c6 = 0 → lookupKV cfg' "IPV6ADDR_SECONDARIES" =
          (if (v6Cidrs subnets).length ≤ 1 then lookupKV cfg "IPV6ADDR_SECONDARIES"
           else some (.s (spaceJoin (v6Cidrs subnets).tail)))) ∧
        (c6 = 1 → lookupKV cfg' "IPV6ADDR_SECONDARIES" =
          (if v6Cidrs subnets = [] then lookupKV cfg "IPV6ADDR_SECONDARIES"
           else some (.s (spaceJoin (v6Cidrs subnets))))) ∧
        (∀ p, 2 ≤ c6 → lookupKV cfg "IPV6ADDR_SECONDARIES" = some (.s p) →
          lookupKV cfg' "IPV6ADDR_SECONDARIES" =
          (if v6Cidrs subnets = [] then some (.s p)
           else some (.s (p ++ " " ++ spaceJoin (v6Cidrs subnets))))) := by
  intro subnets
  induction subnets with
  | nil =>
    intro cfg c4 c6 hpre
    refine ⟨cfg, rfl, fun q _ _ _ _ => rfl, ?_, ?_, ?_, ?_, ?_, ?_⟩
    · intro k; simp [v4Statics]
    · intro k; simp [v4Statics]
    · simp [v6Cidrs]
    · intro hc; simp [v6Cidrs]
    · intro hc; simp [v6Cidrs]
    · intro p hc hp; simp [v6Cidrs, hp]
  | cons s rest ih =>
    intro cfg c4 c6 hpre
    by_cases hst : s.type_ = some "static"
    · by_cases hv6s : subnet_is_ipv6 s = true
      · -- a static IPv6 subnet
        have hv4 := v4Statics_cons_skip (isV4Static_false_of_v6 hv6s) rest
        have hv6c := v6Cidrs_cons_take (isV6Static_true hst hv6s) rest
        by_cases hc0 : c6 = 0
        · subst hc0
          have hstep := scan2_cons_v6_zero hst hv6s cfg c4 rest
          obtain ⟨cfg', hok, hframe, hv4a, hv4n, hv6a, hs0, hs1, hs2⟩ :=
            ih (setKV cfg "IPV6ADDR" (.s (ipv6CidrOf s))) c4 1
              (fun h => absurd h (by omega))
          refine ⟨cfg', by rw [hstep]; exact hok, ?_, ?_, ?_, ?_, ?_, ?_, ?_⟩
          · intro q hq4 hqn hqa hqs
            rw [hframe q hq4 hqn hqa hqs]
            exact lookup_setKV_ne cfg _ hqa
          · intro k
            cases hget : (v4Statics rest)[k]? with
            | some s' => rw [hv4, hv4a k, hget]
            | none =>
              rw [hv4, hv4a k, hget]
              exact lookup_setKV_ne cfg _ (ipaddrKey_ne_ipv6addr _)
          · intro k
            cases hget : (v4Statics rest)[k]? with
            | some s' =>
              rw [hv4, hv4n k]
              simp only [hget]
              cases hnm' : s'.netmask with
              | some nm' => simp only [hnm']
              | none =>
                simp only [hnm']
                exact lookup_setKV_ne cfg _ (netmaskKey_ne_ipv6addr _)
            | none =>
              rw [hv4, hv4n k, hget]
              exact lookup_setKV_ne cfg _ (netmaskKey_ne_ipv6addr _)
          · have h1 : lookupKV cfg' "IPV6ADDR" = some (.s (ipv6CidrOf s)) := by
              rw [hv6a, if_neg (by decide), lookup_setKV_self]
            rw [h1, hv6c, if_pos rfl]
            simp
          · intro _
            rw [hv6c]
            by_cases hr : v6Cidrs rest = []
            · rw [if_pos (by simp [hr])]
              have h1 := hs1 rfl
              rw [if_pos hr] at h1
              rw [h1]
              exact lookup_setKV_ne cfg _ (by decide)
            · rw [if_neg (by
                simp only [List.length_cons]
                have := List.length_pos.mpr hr
                omega)]
              have h1 := hs1 rfl
              rw [if_neg hr] at h1
              rw [h1]
              rfl
          · intro hc; exact absurd hc (by decide)
          · intro p hc hp; exact absurd hc (by omega)
        · by_cases hc1 : c6 = 1
          · subst hc1
            have hstep := scan2_cons_v6_one hst hv6s cfg c4 rest
            obtain ⟨cfg', hok, hframe, hv4a, hv4n, hv6a, hs0, hs1, hs2⟩ :=
              ih (setKV cfg "IPV6ADDR_SECONDARIES" (.s (ipv6CidrOf s))) c4 2
                (fun _ => ⟨ipv6CidrOf s, lookup_setKV_self _ _ _⟩)
            refine ⟨cfg', by rw [hstep]; exact hok, ?_, ?_, ?_, ?_, ?_, ?_, ?_⟩
            · intro q hq4 hqn hqa hqs
              rw [hframe q hq4 hqn hqa hqs]
              exact lookup_setKV_ne cfg _ hqs
            · intro k
              cases hget : (v4Statics rest)[k]? with
              | some s' => rw [hv4, hv4a k, hget]
              | none =>
                rw [hv4, hv4a k, hget]
                exact lookup_setKV_ne cfg _ (ipaddrKey_ne_ipv6sec _)
            · intro k
              cases hget : (v4Statics rest)[k]? with
              | some s' =>
                rw [hv4, hv4n k]
                simp only [hget]
                cases hnm' : s'.netmask with
                | some nm' => simp only [hnm']
                | none =>
                  simp only [hnm']
                  exact lookup_setKV_ne cfg _ (netmaskKey_ne_ipv6sec _)
              | none =>
                rw [hv4, hv4n k, hget]
                exact lookup_setKV_ne cfg _ (netmaskKey_ne_ipv6sec _)
            · rw [if_neg (by decide), hv6a, if_neg (by decide)]
              exact lookup_setKV_ne cfg _ (by decide)
            · intro hc; exact absurd hc (by decide)
            · intro _
              rw [hv6c, if_neg (by simp)]
              have h2 := hs2 (ipv6CidrOf s) (by omega) (lookup_setKV_self _ _ _)
              rw [h2]
              by_cases hr : v6Cidrs rest = []
              · rw [if_pos hr, spaceJoin_cons, if_pos hr]
              · rw [if_neg hr, spaceJoin_cons, if_neg hr]
            · intro p hc hp; exact absurd hc (by omega)
          · have h2le : 2 ≤ c6 := by omega
            obtain ⟨p, hp⟩ := hpre h2le
            have hstep := scan2_cons_v6_ge2 hst hv6s h2le hp c4 rest
            obtain ⟨cfg', hok, hframe, hv4a, hv4n, hv6a, hs0, hs1, hs2⟩ :=
              ih (setKV cfg "IPV6ADDR_SECONDARIES"
                  (.s (p ++ " " ++ ipv6CidrOf s))) c4 (c6 + 1)
                (fun _ => ⟨_, lookup_setKV_self _ _ _⟩)
            refine ⟨cfg', by rw [hstep]; exact hok, ?_, ?_, ?_, ?_, ?_, ?_, ?_⟩
            · intro q hq4 hqn hqa hqs
              rw [hframe q hq4 hqn hqa hqs]
              exact lookup_setKV_ne cfg _ hqs
            · intro k
              cases hget : (v4Statics rest)[k]? with
              | some s' => rw [hv4, hv4a k, hget]
              | none =>
                rw [hv4, hv4a k, hget]
                exact lookup_setKV_ne cfg _ (ipaddrKey_ne_ipv6sec _)
            · intro k
              cases hget : (v4Statics rest)[k]? with
              | some s' =>
                rw [hv4, hv4n k]
                simp only [hget]
                cases hnm' : s'.netmask with
                | some nm' => simp only [hnm']
                | none =>
                  simp only [hnm']
                  exact lookup_setKV_ne cfg _ (netmaskKey_ne_ipv6sec _)
              | none =>
                rw [hv4, hv4n k, hget]
                exact lookup_setKV_ne cfg _ (netmaskKey_ne_ipv6sec _)
            · rw [if_neg hc0, hv6a, if_neg (by omega)]
              exact lookup_setKV_ne cfg _ (by decide)
            · intro hc; exact absurd hc hc0
            · intro hc; exact absurd hc hc1
            · intro p' hc hp'
              rw [hp] at hp'
              have hpp : p = p' := by
                have h1 := Option.some.inj hp'
                exact PyVal.s.inj h1
              subst hpp
              rw [hv6c, if_neg (by simp)]
              have h2 := hs2 (p ++ " " ++ ipv6CidrOf s) (by omega)
                (lookup_setKV_self _ _ _)
              rw [h2]
              by_cases hr : v6Cidrs rest = []
              · rw [if_pos hr, spaceJoin_cons, if_pos hr]
              · rw [if_neg hr, spaceJoin_cons, if_neg hr]
                simp [String.append_assoc]
      · -- a static IPv4 subnet
        have hv6f : subnet_is_ipv6 s = false := by simpa using hv6s
        have hv4c := v4Statics_cons_take (isV4Static_true hst hv6f) rest
        have hv6sk := v6Cidrs_cons_skip (isV6Static_false_of_v4 hv6f) rest
        have hstep := scan2_cons_v4 hst hv6f cfg c4 c6 rest
        have hT : ∀ q, q ≠ ipaddrKey c4 → q ≠ netmaskKey c4 →
            lookupKV (match s.netmask with
              | some nm =>
                setKV (setKV cfg (ipaddrKey c4) (.s s.address)) (netmaskKey c4) nm
              | none => setKV cfg (ipaddrKey c4) (.s s.address)) q =
              lookupKV cfg q := by
          intro q h1 h2
          cases s.netmask with
          | some nm => rw [lookup_setKV_ne _ _ h2, lookup_setKV_ne _ _ h1]
          | none => rw [lookup_setKV_ne _ _ h1]
        have hAddr : lookupKV (match s.netmask with
              | some nm =>
                setKV (setKV cfg (ipaddrKey c4) (.s s.address)) (netmaskKey c4) nm
              | none => setKV cfg (ipaddrKey c4) (.s s.address)) (ipaddrKey c4) =
            some (.s s.address) := by
          cases s.netmask with
          | some nm =>
            rw [lookup_setKV_ne _ _ (ipaddrKey_ne_netmaskKey c4 c4),
              lookup_setKV_self]
          | none => rw [lookup_setKV_self]
        have hNm : lookupKV (match s.netmask with
              | some nm =>
                setKV (setKV cfg (ipaddrKey c4) (.s s.address)) (netmaskKey c4) nm
              | none => setKV cfg (ipaddrKey c4) (.s s.address)) (netmaskKey c4) =
            (match s.netmask with
             | some nm => some nm
             | none => lookupKV cfg (netmaskKey c4)) := by
          cases s.netmask with
          | some nm => rw [lookup_setKV_self]
          | none =>
            rw [lookup_setKV_ne _ _ (ipaddrKey_ne_netmaskKey c4 c4).symm]
        obtain ⟨cfg', hok, hframe, hv4a, hv4n, hv6a, hs0, hs1, hs2⟩ :=
          ih (match s.netmask with
              | some nm =>
                setKV (setKV cfg (ipaddrKey c4) (.s s.address)) (netmaskKey c4) nm
              | none => setKV cfg (ipaddrKey c4) (.s s.address)) (c4 + 1) c6
            (fun h => by
              rw [hT _ (ipaddrKey_ne_ipv6sec c4).symm (netmaskKey_ne_ipv6sec c4).symm]
              exact hpre h)
        refine ⟨cfg', by rw [hstep]; exact hok, ?_, ?_, ?_, ?_, ?_, ?_, ?_⟩
        · intro q hq4 hqn hqa hqs
          rw [hframe q
            (fun j => by
              have h := hq4 (1 + j)
              rwa [show c4 + (1 + j) = c4 + 1 + j from by omega] at h)
            (fun j => by
              have h := hqn (1 + j)
              rwa [show c4 + (1 + j) = c4 + 1 + j from by omega] at h)
            hqa hqs]
          exact hT q (by simpa using hq4 0) (by simpa using hqn 0)
        · intro k
          rw [hv4c]
          cases k with
          | zero =>
            rw [Nat.add_zero, List.getElem?_cons_zero]
            rw [hframe (ipaddrKey c4)
              (fun j hcontra => absurd (ipaddrKey_inj hcontra) (by omega))
              (fun j => ipaddrKey_ne_netmaskKey c4 (c4 + 1 + j))
              (ipaddrKey_ne_ipv6addr c4) (ipaddrKey_ne_ipv6sec c4)]
            exact hAddr
          | succ k =>
            rw [show c4 + (k + 1) = c4 + 1 + k from by omega,
              List.getElem?_cons_succ]
            cases hget : (v4Statics rest)[k]? with
            | some s' => rw [hv4a k, hget]
            | none =>
              rw [hv4a k, hget]
              exact hT _
                (fun hcontra => absurd (ipaddrKey_inj hcontra) (by omega))
                (ipaddrKey_ne_netmaskKey (c4 + 1 + k) c4)
        · intro k
          rw [hv4c]
          cases k with
          | zero =>
            rw [Nat.add_zero, List.getElem?_cons_zero]
            rw [hframe (netmaskKey c4)
              (fun j => (ipaddrKey_ne_netmaskKey (c4 + 1 + j) c4).symm)
              (fun j hcontra => absurd (netmaskKey_inj hcontra) (by omega))
              (netmaskKey_ne_ipv6addr c4) (netmaskKey_ne_ipv6sec c4)]
            exact hNm
          | succ k =>
            rw [show c4 + (k + 1) = c4 + 1 + k from by omega,
              List.getElem?_cons_succ]
            cases hget : (v4Statics rest)[k]? with
            | some s' =>
              rw [hv4n k]
              simp only [hget]
              cases hnm' : s'.netmask with
              | some nm' => simp only [hnm']
              | none =>
                simp only [hnm']
                exact hT _ (ipaddrKey_ne_netmaskKey c4 (c4 + 1 + k)).symm
                  (fun hcontra => absurd (netmaskKey_inj hcontra) (by omega))
            | none =>
              rw [hv4n k, hget]
              exact hT _ (ipaddrKey_ne_netmaskKey c4 (c4 + 1 + k)).symm
                (fun hcontra => absurd (netmaskKey_inj hcontra) (by omega))
        · rw [hv6sk, hv6a]
          by_cases hc0 : c6 = 0
          · rw [if_pos hc0, if_pos hc0]
            cases hhd : (v6Cidrs rest).head? with
            | some c => rfl
            | none =>
              exact hT _ (ipaddrKey_ne_ipv6addr c4).symm
                (netmaskKey_ne_ipv6addr c4).symm
          · rw [if_neg hc0, if_neg hc0]
            exact hT _ (ipaddrKey_ne_ipv6addr c4).symm
              (netmaskKey_ne_ipv6addr c4).symm
        · intro hc
          rw [hv6sk, hs0 hc]
          by_cases hr : (v6Cidrs rest).length ≤ 1
          · rw [if_pos hr, if_pos hr]
            exact hT _ (ipaddrKey_ne_ipv6sec c4).symm (netmaskKey_ne_ipv6sec c4).symm
          · rw [if_neg hr, if_neg hr]
        · intro hc
          rw [hv6sk, hs1 hc]
          by_cases hr : v6Cidrs rest = []
          · rw [if_pos hr, if_pos hr]
            exact hT _ (ipaddrKey_ne_ipv6sec c4).symm (netmaskKey_ne_ipv6sec c4).symm
          · rw [if_neg hr, if_neg hr]
        · intro p hc hp
          have hp₂ : lookupKV (match s.netmask with
              | some nm =>
                setKV (setKV cfg (ipaddrKey c4) (.s s.address)) (netmaskKey c4) nm
              | none => setKV cfg (ipaddrKey c4) (.s s.address))
              "IPV6ADDR_SECONDARIES" = some (.s p) := by
            rw [hT _ (ipaddrKey_ne_ipv6sec c4).symm (netmaskKey_ne_ipv6sec c4).symm]
            exact hp
          rw [hv6sk, hs2 p hc hp₂]
    · -- not a static subnet: the scan leaves everything alone
      have hstep := scan2_cons_skip hst cfg c4 c6 rest
      have hv4 := v4Statics_cons_skip (isV4Static_false_of_not_static hst) rest
      have hv6 := v6Cidrs_cons_skip (isV6Static_false_of_not_static hst) rest
      obtain ⟨cfg', hok, hframe, hv4a, hv4n, hv6a, hs0, hs1, hs2⟩ :=
        ih cfg c4 c6 hpre
      refine ⟨cfg', by rw [hstep]; exact hok, hframe, ?_, ?_, ?_, ?_, ?_, ?_⟩
      · intro k; rw [hv4]; exact hv4a k
      · intro k; rw [hv4]; exact hv4n k
      · rw [hv6]; exact hv6a
      · intro hc; rw [hv6]; exact hs0 hc
      · intro hc; rw [hv6]; exact hs1 hc
      · intro p hc hp; rw [hv6]; exact hs2 p hc hp

/-- C3: on a config with no static-address keys yet, the second scan of
`_render_subnets` assigns static addresses with independent zero-based
per-family counters: the `k`-th static IPv4 subnet lands in
`IPADDR`/`IPADDR<k>` (plus `NETMASK`/`NETMASK<k>` exactly when it has a
netmask); the first static IPv6 subnet's CIDR lands in `IPV6ADDR` and
all further ones are joined space-separated in
`IPV6ADDR_SECONDARIES`. -/
theorem render_subnets_static_address_assignment :
    ∀ (subnets : List Subnet) (cfg : KVList),
      (∀ j, lookupKV cfg (ipaddrKey j) = none) →
      (∀ j, lookupKV cfg (netmaskKey j) = none) →
      lookupKV cfg "IPV6ADDR" = none →
      lookupKV cfg "IPV6ADDR_SECONDARIES" = none →
      ∃ cfg', render_subnets_scan2 cfg 0 0 subnets = .ok cfg' ∧
        (∀ k, lookupKV cfg' (ipaddrKey k) =
          ((v4Statics subnets)[k]?).map (fun s => PyVal.s s.address)) ∧
        (∀ k, lookupKV cfg' (netmaskKey k) =
          ((v4Statics subnets)[k]?).bind (fun s => s.netmask)) ∧
        lookupKV cfg' "IPV6ADDR" = ((v6Cidrs subnets).head?).map PyVal.s ∧
        lookupKV cfg' "IPV6ADDR_SECONDARIES" =
          (if (v6Cidrs subnets).length ≤ 1 then none
           else some (.s (spaceJoin (v6Cidrs subnets).tail))) := by
  intro subnets cfg hf4 hfn hfa hfs
  obtain ⟨cfg', hok, hframe, hv4a, hv4n, hv6a, hs0, hs1, hs2⟩ :=
    scan2_char subnets cfg 0 0 (fun h => absurd h (by omega))
  refine ⟨cfg', hok, ?_, ?_, ?_, ?_⟩
  · intro k
    have h := hv4a k
    rw [Nat.zero_add] at h
    cases hget : (v4Statics subnets)[k]? with
    | some s =>
      simp only [hget] at h ⊢
      exact h
    | none =>
      simp only [hget] at h ⊢
      rw [h]
      exact hf4 k
  · intro k
    have h := hv4n k
    rw [Nat.zero_add] at h
    cases hget : (v4Statics subnets)[k]? with
    | some s =>
      simp only [hget, Option.bind] at h ⊢
      cases hnm : s.netmask with
      | some nm =>
        simp only [hnm] at h ⊢
        exact h
      | none =>
        simp only [hnm] at h ⊢
        rw [h]
        exact hfn k
    | none =>
      simp only [hget, Option.bind] at h ⊢
      rw [h]
      exact hfn k
  · rw [hv6a, if_pos rfl]
    cases hhd : (v6Cidrs subnets).head? with
    | some c => rfl
    | none => exact hfa
  · have h := hs0 rfl
    rw [h]
    by_cases hr : (v6Cidrs subnets).length ≤ 1
    · rw [if_pos hr, if_pos hr]
      exact hfs
    · rw [if_neg hr, if_neg hr]

/-- Witness for C3 at a concrete interleaved list of two static IPv4 and
three static IPv6 subnets. -/
theorem render_subnets_static_address_assignment_witness :
    ∃ cfg', render_subnets_scan2 [] 0 0
        [⟨some "static", "10.0.0.5", some (.s "255.255.255.0"), [], true, false⟩,
         ⟨some "static", "2001:db8::1", some (.i 64), [], false, true⟩,
         ⟨some "static", "10.0.0.6", some (.s "255.255.255.0"), [], true, false⟩,
         ⟨some "static", "2001:db8::2", some (.i 64), [], false, true⟩,
         ⟨some "static", "2001:db8::3", some (.i 64), [], false, true⟩] =
        .ok cfg' ∧
      lookupKV cfg' "IPADDR" = some (.s "10.0.0.5") ∧
      lookupKV cfg' "NETMASK" = some (.s "255.255.255.0") ∧
      lookupKV cfg' "IPADDR1" = some (.s "10.0.0.6") ∧
      lookupKV cfg' "NETMASK1" = some (.s "255.255.255.0") ∧
      lookupKV cfg' "IPV6ADDR" = some (.s "2001:db8::1/64") ∧
      lookupKV cfg' "IPV6ADDR_SECONDARIES" =
        some (.s "2001:db8::2/64 2001:db8::3/64") := by
  obtain ⟨cfg', hok, h1, h2, h3, h4⟩ :=
    render_subnets_static_address_assignment
      [⟨some "static", "10.0.0.5", some (.s "255.255.255.0"), [], true, false⟩,
       ⟨some "static", "2001:db8::1", some (.i 64), [], false, true⟩,
       ⟨some "static", "10.0.0.6", some (.s "255.255.255.0"), [], true, false⟩,
       ⟨some "static", "2001:db8::2", some (.i 64), [], false, true⟩,
       ⟨some "static", "2001:db8::3", some (.i 64), [], false, true⟩]
      [] (fun _ => rfl) (fun _ => rfl) rfl rfl
  refine ⟨cfg', hok, ?_, ?_, ?_, ?_, ?_, ?_⟩
  · simpa using h1 0
  · simpa using h2 0
  · simpa using h1 1
  · simpa using h2 1
  · simpa using h3
  · simpa using h4

/-! ### `Route.to_string` -/

/-- Python `s.replace(pat, '')` on char lists: remove every
(left-to-right, non-overlapping) occurrence of `pat`.  Structurally
recursive on explicit fuel (the input's length always suffices: each
step consumes at least one character). -/
def stripAllAux (pat : List Char) : Nat → List Char → List Char
  | 0, l => l
  | _ + 1, [] => []
  | fuel + 1, c :: rest =>
    if pat ≠ [] ∧ pat.isPrefixOf (c :: rest) = true then
      stripAllAux pat fuel ((c :: rest).drop pat.length)
    else c :: stripAllAux pat fuel rest

/-- Python `s.replace(pat, '')` on char lists. -/
def stripAll (pat l : List Char) : List Char := stripAllAux pat l.length l

/-- Python `key.replace('ADDRESS', '')` (and friends): delete all
occurrences of `pat`. -/
def strReplaceEmpty (s pat : String) : String := ⟨stripAll pat.data s.data⟩

/-- The key-scanning loop of `Route.to_string`: `m` is the full `_conf`
dict (used for the sibling `NETMASK<n>`/`GATEWAY<n>` lookups), the list
argument walks the entries in sorted key order, and `reindex` counts the
IPv4 entries already emitted (the source starts at `-1` and
pre-increments, which numbers them identically). -/
def routeLines (m : KVList) (proto : String) :
    List (String × PyVal) → Nat → Except Err String
  | [], _ => .ok ""
  | (key, v) :: rest, reindex =>
    if strContains key "ADDRESS" = true then
      let index := strReplaceEmpty key "ADDRESS"
      let address_value := pyStr v
      if proto = "ipv4" ∧ Route.is_ipv6_route address_value = false then
        match lookupKV m ("NETMASK" ++ index) with
        | none => .error (.keyError ("NETMASK" ++ index))
        | some nmv =>
          match lookupKV m ("GATEWAY" ++ index) with
          | none => .error (.keyError ("GATEWAY" ++ index))
          | some gwv => do
            let srest ← routeLines m proto rest (reindex + 1)
            .ok ("ADDRESS" ++ natStr reindex ++ "=" ++
                quote_value address_value ++ "\n" ++
              "GATEWAY" ++ natStr reindex ++ "=" ++
                quote_value (pyStr gwv) ++ "\n" ++
              "NETMASK" ++ natStr reindex ++ "=" ++
                quote_value (pyStr nmv) ++ "\n" ++ srest)
      else if proto = "ipv6" ∧ Route.is_ipv6_route address_value = true then
        match lookupKV m ("NETMASK" ++ index) with
        | none => .error (.keyError ("NETMASK" ++ index))
        | some nmv =>
          match lookupKV m ("GATEWAY" ++ index) with
          | none => .error (.keyError ("GATEWAY" ++ index))
          | some gwv => do
            let srest ← routeLines m proto rest reindex
            .ok (address_value ++ "/" ++ pyStr nmv ++ " via " ++
              pyStr gwv ++ "\n" ++ srest)
      else routeLines m proto rest reindex
    else routeLines m proto rest reindex

/-- `Route.to_string(proto)`: reject protocols other than
`ipv4`/`ipv6`, then emit header, separator and the per-family lines. -/
def Route.to_string (r : Route) (proto : String) : Except Err String :=
  if proto ∉ (["ipv4", "ipv6"] : List String) then .error (.invalidProto proto)
  else do
    let lines ← routeLines r.conf proto (sortedPairs r.conf) 0
    .ok (make_header "#" ++ (if r.conf = [] then "" else "\n") ++ lines)

/-! ### Facts about substring matching on the route keys -/

theorem lc_cons_false {c : Char} {rest pat : List Char}
    (h1 : pat.isPrefixOf (c :: rest) = false)
    (h2 : listContains rest pat = false) :
    listContains (c :: rest) pat = false := by
  rw [listContains, h1]
  simpa using h2

theorem natStrAux_digits : ∀ (fuel n : Nat), ∀ c ∈ natStrAux fuel n,
    48 ≤ c.toNat ∧ c.toNat ≤ 57 := by
  intro fuel
  induction fuel with
  | zero => intro n c hc; simp [natStrAux] at hc
  | succ fuel ih =>
    intro n c hc
    rw [natStrAux] at hc
    have hdig : ∀ m : Nat, m < 10 →
        48 ≤ (Nat.digitChar m).toNat ∧ (Nat.digitChar m).toNat ≤ 57 := by decide
    by_cases h10 : n < 10
    · rw [if_pos h10] at hc
      simp only [List.mem_singleton] at hc
      subst hc
      exact hdig n h10
    · rw [if_neg h10] at hc
      rcases List.mem_append.mp hc with hc | hc
      · exact ih _ c hc
      · simp only [List.mem_singleton] at hc
        subst hc
        exact hdig _ (Nat.mod_lt _ (by omega))

theorem natStr_digits (n : Nat) : ∀ c ∈ (natStr n).data,
    48 ≤ c.toNat ∧ c.toNat ≤ 57 :=
  fun c hc => natStrAux_digits (n + 1) n c hc

theorem beq_A_eq_false {c : Char} (hc : 48 ≤ c.toNat ∧ c.toNat ≤ 57) :
    (('A' : Char) == c) = false := by
  apply beq_eq_false_iff_ne.mpr
  intro he
  rw [← he] at hc
  exact absurd hc (by decide)

theorem digits_no_address {d : List Char}
    (hd : ∀ c ∈ d, 48 ≤ c.toNat ∧ c.toNat ≤ 57) :
    listContains d ("ADDRESS".data) = false := by
  induction d with
  | nil => rfl
  | cons c rest ih =>
    apply lc_cons_false
    · rw [show ("ADDRESS".data) = 'A' :: "DDRESS".data from rfl,
        List.isPrefixOf_cons₂, beq_A_eq_false (hd c (by simp))]
      rfl
    · exact ih (fun c' hc' => hd c' (by simp [hc']))

theorem netmaskKeyStr_no_address (i : Nat) :
    strContains ("NETMASK" ++ natStr i) "ADDRESS" = false := by
  have hd := natStr_digits i
  exact lc_cons_false rfl (lc_cons_false rfl (lc_cons_false rfl
    (lc_cons_false rfl (lc_cons_false rfl (lc_cons_false rfl
      (lc_cons_false rfl (digits_no_address hd)))))))

theorem gatewayKeyStr_no_address (i : Nat) :
    strContains ("GATEWAY" ++ natStr i) "ADDRESS" = false := by
  have hd := natStr_digits i
  exact lc_cons_false rfl (lc_cons_false rfl (lc_cons_false rfl
    (lc_cons_false rfl (lc_cons_false rfl (lc_cons_false rfl
      (lc_cons_false rfl (digits_no_address hd)))))))

theorem addressKeyStr_contains (i : Nat) :
    strContains ("ADDRESS" ++ natStr i) "ADDRESS" = true := by
  rw [strContains, listContains.eq_def]
  have h : ("ADDRESS".data).isPrefixOf (("ADDRESS" ++ natStr i).data) = true := by
    rw [List.isPrefixOf_iff_prefix, strData_append]
    exact List.prefix_append _ _
  rw [h]
  rfl

theorem stripAllAux_digits : ∀ (fuel : Nat) (d : List Char),
    (∀ c ∈ d, 48 ≤ c.toNat ∧ c.toNat ≤ 57) →
    stripAllAux ("ADDRESS".data) fuel d = d := by
  intro fuel
  induction fuel with
  | zero => intro d _; rfl
  | succ fuel ih =>
    intro d hd
    cases d with
    | nil => rfl
    | cons c rest =>
      simp only [stripAllAux]
      rw [if_neg]
      · rw [ih rest (fun c' hc' => hd c' (by simp [hc']))]
      · rintro ⟨-, hpre⟩
        rw [List.isPrefixOf_cons₂, beq_A_eq_false (hd c (by simp))] at hpre
        simp at hpre

theorem strReplaceEmpty_addressKey (i : Nat) :
    strReplaceEmpty ("ADDRESS" ++ natStr i) "ADDRESS" = natStr i := by
  apply stringEqOfData
  show stripAll ("ADDRESS".data) (("ADDRESS" ++ natStr i).data) = (natStr i).data
  rw [stripAll, strData_append]
  have h7 : ("ADDRESS".data).length = 7 := rfl
  have hfuel : ("ADDRESS".data ++ (natStr i).data).length =
      ((natStr i).data).length + 6 + 1 := by
    rw [List.length_append, h7]
    omega
  rw [hfuel]
  rw [show ("ADDRESS".data ++ (natStr i).data) =
    'A' :: ("DDRESS".data ++ (natStr i).data) from rfl]
  have hcond : ("ADDRESS".data) ≠ [] ∧
      ("ADDRESS".data).isPrefixOf ('A' :: ("DDRESS".data ++ (natStr i).data)) =
        true := by
    refine ⟨by simp, ?_⟩
    rw [List.isPrefixOf_iff_prefix]
    exact List.prefix_append ("ADDRESS".data) ((natStr i).data)
  simp only [stripAllAux]
  rw [if_pos hcond]
  rw [show (('A' :: ("DDRESS".data ++ (natStr i).data)).drop
      ("ADDRESS".data).length) = (natStr i).data from
    List.drop_left ("ADDRESS".data) ((natStr i).data)]
  exact stripAllAux_digits _ _ (natStr_digits i)

/-! ### The claim-side view of `Route.to_string` -/

/-- The `(address, netmask, gateway)` string triple the serializer reads
for one `ADDRESS`-matching entry (stringified; the `getD` defaults never
fire on well-formed stores, where the siblings are present). -/
def routeEntryOf (m : KVList) (p : String × PyVal) :
    Option (String × String × String) :=
  if strContains p.1 "ADDRESS" = true then
    some (pyStr p.2,
      pyStr ((lookupKV m ("NETMASK" ++ strReplaceEmpty p.1 "ADDRESS")).getD (.s "")),
      pyStr ((lookupKV m ("GATEWAY" ++ strReplaceEmpty p.1 "ADDRESS")).getD (.s "")))
  else none

/-- All route entries of a table, scanned in ascending key order. -/
def routeEntries (r : Route) : List (String × String × String) :=
  (sortedPairs r.conf).filterMap (routeEntryOf r.conf)

/-- One re-numbered IPv4 block (`ADDRESS<i>=`/`GATEWAY<i>=`/`NETMASK<i>=`). -/
def ipv4RouteLine (ie : Nat × String × String × String) : String :=
  "ADDRESS" ++ natStr ie.1 ++ "=" ++ quote_value ie.2.1 ++ "\n" ++
  "GATEWAY" ++ natStr ie.1 ++ "=" ++ quote_value ie.2.2.2 ++ "\n" ++
  "NETMASK" ++ natStr ie.1 ++ "=" ++ quote_value ie.2.2.1 ++ "\n"

/-- One IPv6 line (`<address>/<netmask> via <gateway>`). -/
def ipv6RouteLine (e : String × String × String) : String :=
  e.1 ++ "/" ++ e.2.1 ++ " via " ++ e.2.2 ++ "\n"

/-- The IPv4 body: the non-colon entries, densely re-numbered from 0 in
scan order. -/
def ipv4Body (entries : List (String × String × String)) : String :=
  strConcat (((entries.filter (fun e => !hasColon e.1)).enum).map ipv4RouteLine)

/-- The IPv6 body: one line per colon-containing entry, no numbering. -/
def ipv6Body (entries : List (String × String × String)) : String :=
  strConcat ((entries.filter (fun e => hasColon e.1)).map ipv6RouteLine)

/-- Well-formedness of a route store: every key belongs to one of the
three families `ADDRESS<i>`/`NETMASK<i>`/`GATEWAY<i>`, and every
`ADDRESS<i>` entry has both siblings (which is how
`_render_subnet_routes` populates the store for routes carrying all
three fields). -/
def wfRouteConf (m : KVList) : Prop :=
  ∀ p ∈ m,
    (∃ i, p.1 = "ADDRESS" ++ natStr i ∧
      (∃ v, lookupKV m ("NETMASK" ++ natStr i) = some v) ∧
      (∃ v, lookupKV m ("GATEWAY" ++ natStr i) = some v)) ∨
    (∃ i, p.1 = "NETMASK" ++ natStr i) ∨
    (∃ i, p.1 = "GATEWAY" ++ natStr i)

theorem routeLines_char (m : KVList) (hwf : wfRouteConf m) :
    ∀ (l : List (String × PyVal)), (∀ p ∈ l, p ∈ m) →
      (∀ c, routeLines m "ipv4" l c =
        .ok (strConcat ((((l.filterMap (routeEntryOf m)).filter
          (fun e => !hasColon e.1)).enumFrom c).map ipv4RouteLine))) ∧
      (∀ c, routeLines m "ipv6" l c =
        .ok (strConcat (((l.filterMap (routeEntryOf m)).filter
          (fun e => hasColon e.1)).map ipv6RouteLine))) := by
  intro l
  induction l with
  | nil => intro _; exact ⟨fun _ => rfl, fun _ => rfl⟩
  | cons p rest ih =>
    intro hsub
    obtain ⟨key, v⟩ := p
    have hmem : (key, v) ∈ m := hsub _ (by simp)
    have hrest : ∀ q ∈ rest, q ∈ m := fun q hq => hsub q (by simp [hq])
    obtain ⟨ihv4, ihv6⟩ := ih hrest
    rcases hwf _ hmem with ⟨i, hkey, ⟨nmv, hnm⟩, ⟨gwv, hgw⟩⟩ | ⟨i, hkey⟩ | ⟨i, hkey⟩
    · -- an ADDRESS entry
      simp only at hkey
      subst hkey
      have hcont := addressKeyStr_contains i
      have hstrip := strReplaceEmpty_addressKey i
      have hentry : routeEntryOf m ("ADDRESS" ++ natStr i, v) =
          some (pyStr v, pyStr nmv, pyStr gwv) := by
        simp only [routeEntryOf, hcont, if_true, hstrip, hnm, hgw, Option.getD]
      constructor
      · intro c
        simp only [routeLines, hcont, if_true, hstrip]
        by_cases hcolon : hasColon (pyStr v) = true
        · rw [if_neg (by simp [Route.is_ipv6_route, hcolon]),
            if_neg (by simp), ihv4 c]
          simp only [List.filterMap_cons, hentry, List.filter_cons, hcolon,
            Bool.not_true, Bool.false_eq_true, if_false]
        · have hcf : hasColon (pyStr v) = false := by simpa using hcolon
          rw [if_pos ⟨trivial, by rw [Route.is_ipv6_route]; exact hcf⟩]
          simp only [hnm, hgw]
          rw [ihv4 (c + 1), except_bind_ok]
          simp only [List.filterMap_cons, hentry, List.filter_cons, hcf,
            Bool.not_false, if_true, List.enumFrom_cons, List.map_cons,
            strConcat, ipv4RouteLine]
      · intro c
        simp only [routeLines, hcont, if_true, hstrip]
        by_cases hcolon : hasColon (pyStr v) = true
        · rw [if_neg (by simp), if_pos ⟨trivial, by rw [Route.is_ipv6_route]; exact hcolon⟩]
          simp only [hnm, hgw]
          rw [ihv6 c, except_bind_ok]
          simp only [List.filterMap_cons, hentry, List.filter_cons, hcolon,
            if_true, List.map_cons, strConcat, ipv6RouteLine]
        · have hcf : hasColon (pyStr v) = false := by simpa using hcolon
          rw [if_neg (by simp [Route.is_ipv6_route, hcf]),
            if_neg (by simp [Route.is_ipv6_route, hcf]), ihv6 c]
          simp only [List.filterMap_cons, hentry, List.filter_cons, hcf,
            Bool.false_eq_true, if_false]
    · -- a NETMASK entry: not scanned
      have hnc := netmaskKeyStr_no_address i
      simp only at hkey
      subst hkey
      constructor
      · intro c
        simp only [routeLines, hnc, Bool.false_eq_true, if_false]
        rw [ihv4 c]
        simp only [List.filterMap_cons, routeEntryOf, hnc, Bool.false_eq_true,
          if_false]
      · intro c
        simp only [routeLines, hnc, Bool.false_eq_true, if_false]
        rw [ihv6 c]
        simp only [List.filterMap_cons, routeEntryOf, hnc, Bool.false_eq_true,
          if_false]
    · -- a GATEWAY entry (second): not scanned
      have hnc := gatewayKeyStr_no_address i
      simp only at hkey
      subst hkey
      constructor
      · intro c
        simp only [routeLines, hnc, Bool.false_eq_true, if_false]
        rw [ihv4 c]
        simp only [List.filterMap_cons, routeEntryOf, hnc, Bool.false_eq_true,
          if_false]
      · intro c
        simp only [routeLines, hnc, Bool.false_eq_true, if_false]
        rw [ihv6 c]
        simp only [List.filterMap_cons, routeEntryOf, hnc, Bool.false_eq_true,
          if_false]

/-- C4: `Route.to_string(family)` scans the store's `ADDRESS`-matching
keys in ascending order, classifies each stored address as IPv6 exactly
when its string contains a colon and skips the other family; the IPv4
output re-numbers the matching entries densely from 0 as
`ADDRESS<i>=`/`GATEWAY<i>=`/`NETMASK<i>=` blocks, while the IPv6 output
emits one `<address>/<netmask> via <gateway>` line per entry with no
re-numbering. -/
theorem route_to_string_family_serialization :
    ∀ r : Route, wfRouteConf r.conf →
      Route.to_string r "ipv4" =
        .ok (make_header "#" ++ (if r.conf = [] then "" else "\n") ++
          ipv4Body (routeEntries r)) ∧
      Route.to_string r "ipv6" =
        .ok (make_header "#" ++ (if r.conf = [] then "" else "\n") ++
          ipv6Body (routeEntries r)) := by
  intro r hwf
  have hsub : ∀ p ∈ sortedPairs r.conf, p ∈ r.conf :=
    fun p hp => (sortedPairs_perm r.conf).mem_iff.mp hp
  obtain ⟨h4, h6⟩ := routeLines_char r.conf hwf (sortedPairs r.conf) hsub
  constructor
  · rw [Route.to_string, if_neg (by simp), h4 0, except_bind_ok]
    rfl
  · rw [Route.to_string, if_neg (by simp), h6 0, except_bind_ok]
    rfl

/-- Witness for C4 at a concrete mixed-family route store (an IPv6 route
at index 1, an IPv4 route at index 2; the IPv4 entry is re-numbered to
0). -/
theorem route_to_string_family_serialization_witness :
    Route.to_string
        ⟨[("ADDRESS1", .s "2001:db8::"), ("GATEWAY1", .s "fe80::1"),
          ("NETMASK1", .i 64), ("ADDRESS2", .s "192.168.0.0"),
          ("GATEWAY2", .s "10.0.0.1"), ("NETMASK2", .s "255.255.0.0")],
         3, false, false, "eth0", "b"⟩ "ipv4" =
      .ok (make_header "#" ++ "\n" ++
        "ADDRESS0=192.168.0.0\nGATEWAY0=10.0.0.1\nNETMASK0=255.255.0.0\n") ∧
    Route.to_string
        ⟨[("ADDRESS1", .s "2001:db8::"), ("GATEWAY1", .s "fe80::1"),
          ("NETMASK1", .i 64), ("ADDRESS2", .s "192.168.0.0"),
          ("GATEWAY2", .s "10.0.0.1"), ("NETMASK2", .s "255.255.0.0")],
         3, false, false, "eth0", "b"⟩ "ipv6" =
      .ok (make_header "#" ++ "\n" ++ "2001:db8::/64 via fe80::1\n") := by
  have hwf : wfRouteConf
      [("ADDRESS1", .s "2001:db8::"), ("GATEWAY1", .s "fe80::1"),
       ("NETMASK1", .i 64), ("ADDRESS2", .s "192.168.0.0"),
       ("GATEWAY2", .s "10.0.0.1"), ("NETMASK2", .s "255.255.0.0")] := by
    intro p hp
    simp only [List.mem_cons, List.not_mem_nil, or_false] at hp
    rcases hp with rfl | rfl | rfl | rfl | rfl | rfl
    · exact Or.inl ⟨1, rfl, ⟨.i 64, rfl⟩, ⟨.s "fe80::1", rfl⟩⟩
    · exact Or.inr (Or.inr ⟨1, rfl⟩)
    · exact Or.inr (Or.inl ⟨1, rfl⟩)
    · exact Or.inl ⟨2, rfl, ⟨.s "255.255.0.0", rfl⟩, ⟨.s "10.0.0.1", rfl⟩⟩
    · exact Or.inr (Or.inr ⟨2, rfl⟩)
    · exact Or.inr (Or.inl ⟨2, rfl⟩)
  have h := route_to_string_family_serialization
    ⟨[("ADDRESS1", .s "2001:db8::"), ("GATEWAY1", .s "fe80::1"),
      ("NETMASK1", .i 64), ("ADDRESS2", .s "192.168.0.0"),
      ("GATEWAY2", .s "10.0.0.1"), ("NETMASK2", .s "255.255.0.0")],
     3, false, false, "eth0", "b"⟩ hwf
  exact ⟨h.1.trans (by rfl), h.2.trans (by rfl)⟩

/-! ### The collection pass of `Renderer._render_sysconfig`

The per-interface body of the collection loop.  Two source quirks are
modelled faithfully: the inner `for iface_cfg in iface_cfg.children`
loop reuses the outer loop variable, so the following
`if iface_cfg.routes:` test examines the last child's route table
whenever the interface has children; and that test is ConfigMap
truthiness (`__len__`), so it is false exactly when the route store's
dict is empty. -/

/-- The interface object whose `routes` the collection loop examines
after the child loop: the last child when children exist, otherwise the
interface itself. -/
def examinedCfg (i : NetInterface) : NetInterface :=
  match i.children.getLast? with
  | some c => c
  | none => i

/-- The `ifcfg-` path/content pairs of the collection loop body: the
interface's own file when its dict is non-empty or it has children,
followed by each non-empty child's file. -/
def ifcfgPairs (i : NetInterface) : List (String × String) :=
  if !i.conf.isEmpty || !i.children.isEmpty then
    (i.path, to_string i.conf) ::
      (i.children.filter (fun c => decide (c.conf ≠ []))).map
        (fun c => (c.path, to_string c.conf))
  else []

/-- One iteration of the collection loop (lines 496-506 of the
source). -/
def collectIface (i : NetInterface) : Except Err (List (String × String)) :=
  if (examinedCfg i).routes.conf ≠ [] then do
    let v4 ← Route.to_string (examinedCfg i).routes "ipv4"
    let v6 ← Route.to_string (examinedCfg i).routes "ipv6"
    .ok (ifcfgPairs i ++
      [((examinedCfg i).routes.path_ipv4, v4),
       ((examinedCfg i).routes.path_ipv6, v6)])
  else .ok (ifcfgPairs i)

/-- The whole collection pass over the working set. -/
def collectSysconfig : List NetInterface → Except Err (List (String × String))
  | [] => .ok []
  | i :: rest => do
    let ps ← collectIface i
    let rest2 ← collectSysconfig rest
    .ok (ps ++ rest2)

/-- C5 counterexample: a freshly initialized ethernet interface has an
empty route table, and the collection pass then emits NO route-file
pair for it — neither `route-eth0` nor `route6-eth0` occurs among the
emitted paths, contradicting the claim that both are always present
(with just the header as content) even for an empty route table. -/
theorem collect_route_files_counterexample :
    (NetInterface.init "eth0" "etc/sysconfig" "ethernet").map
        (fun i => (collectSysconfig [i]).map (fun l =>
          ((l.map Prod.fst).contains "etc/sysconfig/network-scripts/route-eth0" ||
           (l.map Prod.fst).contains "etc/sysconfig/network-scripts/route6-eth0",
           l.map Prod.fst))) =
      .ok (.ok (false, ["etc/sysconfig/network-scripts/ifcfg-eth0"])) := by
  rfl

/-- C5 amended: the collection pass emits the IPv4/IPv6 route-file pair
for an interface only when the examined route store (the last child's
when children exist, by the loop-variable shadowing in the source) is
non-empty; when it is empty no route-file entry is emitted at all, and
when it is non-empty both files are appended after the ifcfg pairs. -/
theorem collect_route_files_amended :
    ∀ i : NetInterface,
      ((examinedCfg i).routes.conf = [] → collectIface i = .ok (ifcfgPairs i)) ∧
      (∀ s4 s6, (examinedCfg i).routes.conf ≠ [] →
        Route.to_string (examinedCfg i).routes "ipv4" = .ok s4 →
        Route.to_string (examinedCfg i).routes "ipv6" = .ok s6 →
        collectIface i = .ok (ifcfgPairs i ++
          [((examinedCfg i).routes.path_ipv4, s4),
           ((examinedCfg i).routes.path_ipv6, s6)])) := by
  intro i
  constructor
  · intro hempty
    rw [collectIface, if_neg (by simp [hempty])]
  · intro s4 s6 hne h4 h6
    rw [collectIface, if_pos hne, h4, except_bind_ok, h6, except_bind_ok]

/-- Witness for C5 (amended) at both a route-less and a routed concrete
interface. -/
theorem collect_route_files_amended_witness :
    collectIface ⟨[("TYPE", .s "Ethernet"), ("DEVICE", .s "eth0")], [],
        Route.init "eth0" "b", "eth0", "ethernet", "b"⟩ =
      .ok (ifcfgPairs ⟨[("TYPE", .s "Ethernet"), ("DEVICE", .s "eth0")], [],
        Route.init "eth0" "b", "eth0", "ethernet", "b"⟩) ∧
    collectIface ⟨[("TYPE", .s "Ethernet"), ("DEVICE", .s "eth0")], [],
        ⟨[("ADDRESS1", .s "10.1.0.0"), ("GATEWAY1", .s "10.0.0.1"),
          ("NETMASK1", .s "255.255.0.0")], 2, false, false, "eth0", "b"⟩,
        "eth0", "ethernet", "b"⟩ =
      .ok (ifcfgPairs ⟨[("TYPE", .s "Ethernet"), ("DEVICE", .s "eth0")], [],
          ⟨[("ADDRESS1", .s "10.1.0.0"), ("GATEWAY1", .s "10.0.0.1"),
            ("NETMASK1", .s "255.255.0.0")], 2, false, false, "eth0", "b"⟩,
          "eth0", "ethernet", "b"⟩ ++
        [("b/network-scripts/route-eth0", make_header "#" ++ "\n" ++
           "ADDRESS0=10.1.0.0\nGATEWAY0=10.0.0.1\nNETMASK0=255.255.0.0\n"),
         ("b/network-scripts/route6-eth0", make_header "#" ++ "\n")]) := by
  constructor
  · exact (collect_route_files_amended _).1 rfl
  · exact (collect_route_files_amended _).2
      (make_header "#" ++ "\n" ++
        "ADDRESS0=10.1.0.0\nGATEWAY0=10.0.0.1\nNETMASK0=255.255.0.0\n")
      (make_header "#" ++ "\n") (by decide) (by rfl) (by rfl)

end CloudInit
